import Mathlib

/-!
Verification development for the `nuspec` crate: the typed NuGet package-spec
document model with its delimiter codecs (`src/crates/nuspec/src/spec.rs`) and
the metadata-resolution / file-manifest synthesis engine
(`src/crates/nuspec/src/generate.rs`).

Rust `String` values are embedded as `List Char` (named `Str`) so that the
delimiter-joined list codecs and path manipulations can be analysed by plain
list induction.  The generic XML reader/writer (`quick_xml`) is out of scope;
serialization is therefore modelled down to the level of named XML
attributes/elements (an association list of names to values), which is exactly
the contract the `serde` annotations in `spec.rs` define.  Filesystem access
(`fs::canonicalize`) is modelled by an oracle mapping a path string to the
component list of its canonical form, and environment variables by a record of
optional strings.
-/

namespace NuspecModel

/-- Rust strings, embedded as lists of characters. -/
abbrev Str := List Char

/-- Rust `str::split(c)`: splits at every occurrence of `c`; the empty string
yields `[""]`, and `n` separators yield `n + 1` pieces. -/
def splitChar (c : Char) : Str → List Str
  | [] => [[]]
  | x :: xs =>
    if x = c then [] :: splitChar c xs
    else
      match splitChar c xs with
      | [] => [[x]]
      | y :: ys => (x :: y) :: ys

/-- Joining with a single-character separator: Rust `[String]::join(sep)` and
the `s1,s2,...` encoding of the comma/space/semicolon codecs in `spec.rs`. -/
def joinSep (c : Char) : List Str → Str
  | [] => []
  | [s] => s
  | s :: rest => s ++ c :: joinSep c rest

/-- Rust `str::trim`: drops leading and trailing whitespace. -/
def trimStr (s : Str) : Str :=
  ((s.dropWhile Char.isWhitespace).reverse.dropWhile Char.isWhitespace).reverse

theorem splitChar_ne_nil (c : Char) (s : Str) : splitChar c s ≠ [] := by
  induction s with
  | nil => simp [splitChar]
  | cons x xs ih =>
    simp only [splitChar]
    split
    · simp
    · split
      · simp
      · simp

theorem splitChar_no_sep (c : Char) (s : Str) (h : c ∉ s) : splitChar c s = [s] := by
  induction s with
  | nil => simp [splitChar]
  | cons x xs ih =>
    simp only [List.mem_cons, not_or] at h
    have hx : ¬ x = c := fun hc => h.1 hc.symm
    simp only [splitChar, if_neg hx, ih h.2]

theorem splitChar_append_sep (c : Char) (s t : Str) (h : c ∉ s) :
    splitChar c (s ++ c :: t) = s :: splitChar c t := by
  induction s with
  | nil => simp [splitChar]
  | cons x xs ih =>
    simp only [List.mem_cons, not_or] at h
    have hx : ¬ x = c := fun hc => h.1 hc.symm
    simp only [List.cons_append, splitChar, if_neg hx]
    rw [List.append_eq, ih h.2]

theorem splitChar_joinSep (c : Char) (v : List Str) (hne : v ≠ [])
    (h : ∀ s ∈ v, c ∉ s) : splitChar c (joinSep c v) = v := by
  induction v with
  | nil => exact absurd rfl hne
  | cons s rest ih =>
    cases rest with
    | nil => simpa [joinSep] using splitChar_no_sep c s (h s (by simp))
    | cons t ts =>
      have hs : c ∉ s := h s (by simp)
      have hrest : ∀ u ∈ t :: ts, c ∉ u := fun u hu => h u (by simp [hu])
      simp only [joinSep, splitChar_append_sep c s _ hs, ih (by simp) hrest]

theorem joinSep_ne_nil (c : Char) (v : List Str) (hne : v ≠ []) (hn1 : v ≠ [[]]) :
    joinSep c v ≠ [] := by
  match v with
  | [] => exact absurd rfl hne
  | [s] =>
    intro hc
    exact hn1 (by simpa [joinSep] using hc)
  | s :: t :: ts => simp [joinSep]

theorem trimStr_nil : trimStr [] = [] := rfl

/-! ## Delimiter codecs (`comma_separated`, `space_separated`,
`semicolon_separated` and their `optional_*` wrappers in `spec.rs`)

`encodeSep` is the shared `serialize` body (`value.join(sep)`); `decodeSep` is
the shared `deserialize` body (empty string to the empty list, otherwise split
at the separator and trim each piece). -/

def encodeSep (c : Char) (v : List Str) : Str := joinSep c v

def decodeSep (c : Char) (s : Str) : List Str :=
  if s = [] then [] else (splitChar c s).map trimStr

/-- Elements that survive the delimiter codec: separator-free and stable under
trimming. -/
def sepElemOk (c : Char) (s : Str) : Bool :=
  !decide (c ∈ s) && decide (trimStr s = s)

/-- Lists that survive the delimiter codec: each element survives, and the
list is not the singleton empty string (which encodes as the empty string and
decodes back to the empty list). -/
def sepListOk (c : Char) (v : List Str) : Bool :=
  decide (v ≠ [[]]) && v.all (sepElemOk c)

theorem map_self_of_eq {α : Type} (f : α → α) (l : List α) (h : ∀ a ∈ l, f a = a) :
    l.map f = l := by
  induction l with
  | nil => rfl
  | cons x xs ih =>
    simp only [List.map_cons, h x (by simp), ih (fun a ha => h a (by simp [ha]))]

theorem decodeSep_encodeSep (c : Char) (v : List Str) (h : sepListOk c v = true) :
    decodeSep c (encodeSep c v) = v := by
  simp only [sepListOk, sepElemOk, Bool.and_eq_true, List.all_eq_true,
    decide_eq_true_eq, Bool.not_eq_true', decide_eq_false_iff_not] at h
  obtain ⟨hn1, helem⟩ := h
  rcases eq_or_ne v [] with rfl | hne
  · simp [encodeSep, decodeSep, joinSep]
  · have hjoin : joinSep c v ≠ [] := joinSep_ne_nil c v hne hn1
    have hsplit : splitChar c (joinSep c v) = v :=
      splitChar_joinSep c v hne (fun s hs => (helem s hs).1)
    simp only [encodeSep, decodeSep, if_neg hjoin, hsplit]
    exact map_self_of_eq trimStr v (fun s hs => (helem s hs).2)

/-! ## Path helpers

The source manipulates paths through `std::path::Path`/`PathBuf`.  The model
keeps paths as plain strings with `'/'` as separator (the Unix behaviour of
the host the generator runs on) and re-implements the `Path` operations the
source uses: `file_name`, `join`, `with_file_name`, `with_extension`,
`is_relative`. -/

/-- Rust `Path::is_absolute` on Unix: the path starts with the separator. -/
def isAbsolutePath : Str → Bool
  | [] => false
  | c :: _ => c == '/'

/-- The normal components of a path: split at `'/'`, dropping empty pieces
and `"."` pieces, exactly as `Path::components` normalises. -/
def pathComponents (p : Str) : List Str :=
  (splitChar '/' p).filter (fun c => !c.isEmpty && c != ['.'])

/-- Rust `Path::file_name`: the last normal component, unless the path ends in
`".."` or has no components. -/
def fileName (p : Str) : Option Str :=
  match (pathComponents p).getLast? with
  | none => none
  | some l => if l = ['.', '.'] then none else some l

/-- Rust `PathBuf::join` / `push`: an absolute argument replaces the base;
otherwise the argument is appended after a separator (none added when the base
is empty or already ends with one). -/
def pathJoin (p q : Str) : Str :=
  if isAbsolutePath q then q
  else if p = [] then q
  else if p.getLast? = some '/' then p ++ q
  else p ++ '/' :: q

/-- Everything before the last `'/'` of the path (the empty string when there
is no separator); used to implement `with_file_name`. -/
def stripLastComponent (p : Str) : Str :=
  (p.reverse.dropWhile (fun c => c != '/')).drop 1 |>.reverse

/-- Rust `Path::with_file_name`: pop the file name, if any, then push the new
name. -/
def withFileName (p newName : Str) : Str :=
  match fileName p with
  | some _ => pathJoin (stripLastComponent p) newName
  | none => pathJoin p newName

/-- Rust `Path::file_stem` of a file name: the portion before the last `'.'`,
except that a leading dot does not begin an extension. -/
def fileStem (nm : Str) : Str :=
  let afterDot := nm.reverse.takeWhile (fun c => c != '.')
  if afterDot.length = nm.length then nm
  else
    let stemRev := nm.reverse.drop (afterDot.length + 1)
    if stemRev = [] then nm else stemRev.reverse

/-- Rust `Path::with_extension`: replace the extension of the file name (no
change when the path has no file name). -/
def withExtension (p ext : Str) : Str :=
  match fileName p with
  | none => p
  | some nm => withFileName p (if ext = [] then fileStem nm else fileStem nm ++ '.' :: ext)

/-- Rust `str::replace("-", "_")`, used on crate names. -/
def replaceDash (s : Str) : Str :=
  s.map (fun c => if c = '-' then '_' else c)

/-! ## The document model (`spec.rs`)

Field names, optionality and defaults mirror the Rust structs.  Two field
names are Lean keywords and are renamed: Rust `namespace` (on `Package`)
becomes `ns`, Rust `include` (on `Dependency` and `ContentFile`) becomes
`incl`. -/

/-- The tagged-union license field: an SPDX expression or a file inside the
package. -/
inductive License where
  | expression : Str → License
  | file : Str → License
deriving DecidableEq

structure Repository where
  repository_type : Option Str := none
  url : Option Str := none
  branch : Option Str := none
  commit : Option Str := none
deriving DecidableEq

inductive KnownPackageType where
  | dependency
  | dotnetTool
  | msbuildSdk
  | template
  | custom : Str → KnownPackageType
deriving DecidableEq

structure PackageType where
  name : KnownPackageType
  version : Option Str := none
deriving DecidableEq

structure PackageTypes where
  package_type : List PackageType
deriving DecidableEq

structure Dependency where
  id : Str := []
  version : Str := []
  incl : Option (List Str) := none
  exclude : Option (List Str) := none
deriving DecidableEq

structure DependencyGroup where
  target_framework : Option Str := none
  dependency : List Dependency := []
deriving DecidableEq

structure Dependencies where
  dependency : Option (List Dependency) := none
  group : Option (List DependencyGroup) := none
deriving DecidableEq

structure FrameworkAssembly where
  assembly_name : Str := []
  target_framework : Option Str := none
deriving DecidableEq

structure FrameworkAssemblies where
  framework_assembly : List FrameworkAssembly
deriving DecidableEq

structure Reference where
  file : Str := []
deriving DecidableEq

structure ReferenceGroup where
  target_framework : Option Str := none
  reference : List Reference := []
deriving DecidableEq

structure References where
  reference : Option (List Reference) := none
  group : Option (List ReferenceGroup) := none
deriving DecidableEq

inductive BuildAction where
  | content
  | none
  | embeddedResource
  | compile
deriving DecidableEq

structure ContentFile where
  incl : Str := []
  exclude : Option (List Str) := none
  build_action : Option BuildAction := none
  copy_to_output : Option Bool := none
  flatten : Option Bool := none
deriving DecidableEq

structure ContentFiles where
  files : List ContentFile
deriving DecidableEq

structure File where
  src : Str := []
  target : Option Str := none
  exclude : Option (List Str) := none
deriving DecidableEq

structure Files where
  file : List File
deriving DecidableEq

structure Metadata where
  id : Str := []
  version : Str := []
  description : Str := []
  authors : List Str := []
  project_url : Option Str := none
  license : Option License := none
  icon : Option Str := none
  readme : Option Str := none
  require_license_acceptance : Option Bool := none
  development_dependency : Option Bool := none
  release_notes : Option Str := none
  copyright : Option Str := none
  language : Option Str := none
  tags : Option (List Str) := none
  repository : Option Repository := none
  title : Option Str := none
  min_client_version : Option Str := none
  package_types : Option PackageTypes := none
  dependencies : Option Dependencies := none
  framework_assemblies : Option FrameworkAssemblies := none
  references : Option References := none
  content_files : Option ContentFiles := none
deriving DecidableEq

structure Package where
  ns : Option Str := none
  metadata : Metadata := {}
  files : Option Files := none
deriving DecidableEq

/-! ## The serialized form

The XML reader/writer itself is an external collaborator; what `spec.rs`
defines through its `serde` annotations is the mapping between the typed model
and a tree of named attributes (`@`-prefixed), named child elements, repeated
elements and text content.  `Val` is that tree; an element's content is an
association list from names to values, and repeated same-named children are
grouped as a `vals` list. -/

inductive Val where
  | text : Str → Val
  | node : List (String × Val) → Val
  | vals : List Val → Val

/-- A field serialized only when present (`skip_serializing_if = "Option::is_none"`). -/
def optE (n : String) : Option Val → List (String × Val)
  | Option.none => []
  | Option.some v => [(n, v)]

/-- A field that is always serialized. -/
def reqE (n : String) (v : Val) : List (String × Val) := [(n, v)]

/-- First-match field lookup in an element's content. -/
def lookup (n : String) : List (String × Val) → Option Val
  | [] => Option.none
  | (k, v) :: rest => if k = n then Option.some v else lookup n rest

/-- Outcome of reading a field that has a `serde` alias: both names present is
the duplicate-field error. -/
inductive FieldLookup where
  | dup : FieldLookup
  | found : Val → FieldLookup
  | absent : FieldLookup

def lookup2 (n a : String) (ch : List (String × Val)) : FieldLookup :=
  match lookup n ch, lookup a ch with
  | Option.some _, Option.some _ => .dup
  | Option.some v, Option.none => .found v
  | Option.none, Option.some v => .found v
  | Option.none, Option.none => .absent

/-! Names and fixed payload strings used by the schema.  `…N` is the
canonical (serialized) name, `…A` the `serde` alias accepted only on
deserialization. -/

def xmlnsN : String := "@xmlns"
def xmlnsA : String := "xmlns"
def metadataN : String := "metadata"
def filesN : String := "files"
def idN : String := "id"
def versionN : String := "version"
def descriptionN : String := "description"
def summaryA : String := "summary"
def authorsN : String := "authors"
def ownersA : String := "owners"
def projectUrlN : String := "projectUrl"
def projectUrlA : String := "project_url"
def licenseN : String := "license"
def iconN : String := "icon"
def readmeN : String := "readme"
def requireLicenseAcceptanceN : String := "requireLicenseAcceptance"
def requireLicenseAcceptanceA : String := "require_license_acceptance"
def developmentDependencyN : String := "developmentDependency"
def developmentDependencyA : String := "development_dependencies"
def releaseNotesN : String := "releaseNotes"
def releaseNotesA : String := "release_notes"
def copyrightN : String := "copyright"
def languageN : String := "language"
def tagsN : String := "tags"
def repositoryN : String := "repository"
def titleN : String := "title"
def minClientVersionN : String := "@minClientVersion"
def minClientVersionA : String := "min_client_version"
def packageTypesN : String := "packageTypes"
def packageTypesA : String := "package_types"
def dependenciesN : String := "dependencies"
def frameworkAssembliesN : String := "frameworkAssemblies"
def frameworkAssembliesA : String := "framework_assemblies"
def referencesN : String := "references"
def contentFilesN : String := "contentFiles"
def contentFilesA : String := "content_files"
def typeAttrN : String := "@type"
def typeA : String := "type"
def urlAttrN : String := "@url"
def urlA : String := "url"
def branchAttrN : String := "@branch"
def branchA : String := "branch"
def commitAttrN : String := "@commit"
def commitA : String := "commit"
def textN : String := "$text"
def nameAttrN : String := "@name"
def nameA : String := "name"
def versionAttrN : String := "@version"
def packageTypeN : String := "packageType"
def packageTypeA : String := "package_type"
def idAttrN : String := "@id"
def includeAttrN : String := "@include"
def includeA : String := "include"
def excludeAttrN : String := "@exclude"
def excludeA : String := "exclude"
def dependencyN : String := "dependency"
def groupN : String := "group"
def targetFrameworkAttrN : String := "@targetFramework"
def targetFrameworkA : String := "target_framework"
def frameworkAssemblyN : String := "frameworkAssembly"
def frameworkAssemblyA : String := "framework_assembly"
def assemblyNameAttrN : String := "@assemblyName"
def assemblyNameA : String := "assembly_name"
def referenceN : String := "reference"
def fileAttrN : String := "@file"
def fileA : String := "file"
def buildActionAttrN : String := "@buildAction"
def buildActionA : String := "build_action"
def copyToOutputAttrN : String := "@copyToOutput"
def copyToOutputA : String := "copy_to_output"
def flattenAttrN : String := "@flatten"
def flattenA : String := "flatten"
def fileN : String := "file"
def srcAttrN : String := "@src"
def srcA : String := "src"
def targetAttrN : String := "@target"
def targetA : String := "target"

attribute [simp] xmlnsN xmlnsA metadataN filesN idN versionN descriptionN summaryA
  authorsN ownersA projectUrlN projectUrlA licenseN iconN readmeN
  requireLicenseAcceptanceN requireLicenseAcceptanceA developmentDependencyN
  developmentDependencyA releaseNotesN releaseNotesA copyrightN languageN tagsN
  repositoryN titleN minClientVersionN minClientVersionA packageTypesN packageTypesA
  dependenciesN frameworkAssembliesN frameworkAssembliesA referencesN contentFilesN
  contentFilesA typeAttrN typeA urlAttrN urlA branchAttrN branchA commitAttrN commitA
  textN nameAttrN nameA versionAttrN packageTypeN packageTypeA idAttrN includeAttrN
  includeA excludeAttrN excludeA dependencyN groupN targetFrameworkAttrN
  targetFrameworkA frameworkAssemblyN frameworkAssemblyA assemblyNameAttrN
  assemblyNameA referenceN fileAttrN fileA buildActionAttrN buildActionA
  copyToOutputAttrN copyToOutputA flattenAttrN flattenA fileN srcAttrN srcA
  targetAttrN targetA

def expressionV : Str := "expression".toList
def fileV : Str := "file".toList
def trueV : Str := "true".toList
def falseV : Str := "false".toList
def ktDependencyV : Str := "Dependency".toList
def ktDotnetToolV : Str := "DotnetTool".toList
def ktMSBuildSdkV : Str := "MSBuildSdk".toList
def ktTemplateV : Str := "Template".toList
def baContentV : Str := "Content".toList
def baNoneV : Str := "None".toList
def baEmbeddedResourceV : Str := "EmbeddedResource".toList
def baCompileV : Str := "Compile".toList

def boolStr : Bool → Str
  | true => trueV
  | false => falseV

/-- The `Display` implementation of `KnownPackageType`. -/
def knownPackageTypeStr : KnownPackageType → Str
  | .dependency => ktDependencyV
  | .dotnetTool => ktDotnetToolV
  | .msbuildSdk => ktMSBuildSdkV
  | .template => ktTemplateV
  | .custom s => s

def buildActionStr : BuildAction → Str
  | .content => baContentV
  | .none => baNoneV
  | .embeddedResource => baEmbeddedResourceV
  | .compile => baCompileV

/-! ### Serialization -/

def serializeLicense : License → Val
  | .expression s => .node (reqE typeAttrN (.text expressionV) ++ reqE textN (.text s))
  | .file s => .node (reqE typeAttrN (.text fileV) ++ reqE textN (.text s))

def serializeRepository (r : Repository) : Val :=
  .node (optE typeAttrN (r.repository_type.map .text)
    ++ optE urlAttrN (r.url.map .text)
    ++ optE branchAttrN (r.branch.map .text)
    ++ optE commitAttrN (r.commit.map .text))

def serializePackageType (pt : PackageType) : Val :=
  .node (reqE nameAttrN (.text (knownPackageTypeStr pt.name))
    ++ optE versionAttrN (pt.version.map .text))

def serializePackageTypes (pts : PackageTypes) : Val :=
  .node (reqE packageTypeN (.vals (pts.package_type.map serializePackageType)))

def serializeDependency (d : Dependency) : Val :=
  .node (reqE idAttrN (.text d.id) ++ reqE versionAttrN (.text d.version)
    ++ optE includeAttrN (d.incl.map (fun v => .text (encodeSep ',' v)))
    ++ optE excludeAttrN (d.exclude.map (fun v => .text (encodeSep ',' v))))

def serializeDependencyGroup (g : DependencyGroup) : Val :=
  .node (optE targetFrameworkAttrN (g.target_framework.map .text)
    ++ reqE dependencyN (.vals (g.dependency.map serializeDependency)))

def serializeDependencies (d : Dependencies) : Val :=
  .node (optE dependencyN (d.dependency.map (fun l => .vals (l.map serializeDependency)))
    ++ optE groupN (d.group.map (fun l => .vals (l.map serializeDependencyGroup))))

def serializeFrameworkAssembly (fa : FrameworkAssembly) : Val :=
  .node (reqE assemblyNameAttrN (.text fa.assembly_name)
    ++ optE targetFrameworkAttrN (fa.target_framework.map .text))

def serializeFrameworkAssemblies (f : FrameworkAssemblies) : Val :=
  .node (reqE frameworkAssemblyN (.vals (f.framework_assembly.map serializeFrameworkAssembly)))

def serializeReference (r : Reference) : Val :=
  .node (reqE fileAttrN (.text r.file))

def serializeReferenceGroup (g : ReferenceGroup) : Val :=
  .node (optE targetFrameworkAttrN (g.target_framework.map .text)
    ++ reqE referenceN (.vals (g.reference.map serializeReference)))

def serializeReferences (r : References) : Val :=
  .node (optE referenceN (r.reference.map (fun l => .vals (l.map serializeReference)))
    ++ optE groupN (r.group.map (fun l => .vals (l.map serializeReferenceGroup))))

def serializeContentFile (cf : ContentFile) : Val :=
  .node (reqE includeAttrN (.text cf.incl)
    ++ optE excludeAttrN (cf.exclude.map (fun v => .text (encodeSep ';' v)))
    ++ optE buildActionAttrN (cf.build_action.map (fun b => .text (buildActionStr b)))
    ++ optE copyToOutputAttrN (cf.copy_to_output.map (fun b => .text (boolStr b)))
    ++ optE flattenAttrN (cf.flatten.map (fun b => .text (boolStr b))))

def serializeContentFiles (c : ContentFiles) : Val :=
  .node (reqE filesN (.vals (c.files.map serializeContentFile)))

def serializeFile (f : File) : Val :=
  .node (reqE srcAttrN (.text f.src)
    ++ optE targetAttrN (f.target.map .text)
    ++ optE excludeAttrN (f.exclude.map (fun v => .text (encodeSep ';' v))))

def serializeFiles (fs : Files) : Val :=
  .node (reqE fileN (.vals (fs.file.map serializeFile)))

def serializeMetadata (m : Metadata) : List (String × Val) :=
  reqE idN (.text m.id)
    ++ reqE versionN (.text m.version)
    ++ reqE descriptionN (.text m.description)
    ++ reqE authorsN (.text (encodeSep ',' m.authors))
    ++ optE projectUrlN (m.project_url.map .text)
    ++ optE licenseN (m.license.map serializeLicense)
    ++ optE iconN (m.icon.map .text)
    ++ optE readmeN (m.readme.map .text)
    ++ optE requireLicenseAcceptanceN (m.require_license_acceptance.map (fun b => .text (boolStr b)))
    ++ optE developmentDependencyN (m.development_dependency.map (fun b => .text (boolStr b)))
    ++ optE releaseNotesN (m.release_notes.map .text)
    ++ optE copyrightN (m.copyright.map .text)
    ++ optE languageN (m.language.map .text)
    ++ optE tagsN (m.tags.map (fun v => .text (encodeSep ' ' v)))
    ++ optE repositoryN (m.repository.map serializeRepository)
    ++ optE titleN (m.title.map .text)
    ++ optE minClientVersionN (m.min_client_version.map .text)
    ++ optE packageTypesN (m.package_types.map serializePackageTypes)
    ++ optE dependenciesN (m.dependencies.map serializeDependencies)
    ++ optE frameworkAssembliesN (m.framework_assemblies.map serializeFrameworkAssemblies)
    ++ optE referencesN (m.references.map serializeReferences)
    ++ optE contentFilesN (m.content_files.map serializeContentFiles)

def serializePackage (p : Package) : Val :=
  .node (optE xmlnsN (p.ns.map .text)
    ++ reqE metadataN (.node (serializeMetadata p.metadata))
    ++ optE filesN (p.files.map serializeFiles))

/-! ### Deserialization

Field readers mirror what the `serde` derive does: a `serde(default)` field
falls back to its default when absent, an `Option` field becomes `none` when
absent, a field without a default errors when absent, and the presence of both
a canonical name and its alias is the duplicate-field error.  (Unknown-field
rejection — `deny_unknown_fields` — is not modelled; it only narrows the
accepted inputs and plays no role in the claims.) -/

def asText : Val → Option Str
  | .text s => Option.some s
  | _ => Option.none

def asVals : Val → Option (List Val)
  | .vals l => Option.some l
  | _ => Option.none

def asBool (v : Val) : Option Bool :=
  match asText v with
  | Option.some s =>
    if s = trueV then Option.some true
    else if s = falseV then Option.some false
    else Option.none
  | Option.none => Option.none

def readOpt1 {α : Type} (n : String) (f : Val → Option α)
    (ch : List (String × Val)) : Option (Option α) :=
  match lookup n ch with
  | Option.none => Option.some Option.none
  | Option.some v => (f v).map Option.some

def readOpt2 {α : Type} (n a : String) (f : Val → Option α)
    (ch : List (String × Val)) : Option (Option α) :=
  match lookup2 n a ch with
  | .dup => Option.none
  | .absent => Option.some Option.none
  | .found v => (f v).map Option.some

def readReq1 {α : Type} (n : String) (f : Val → Option α)
    (ch : List (String × Val)) : Option α :=
  (lookup n ch).bind f

def readReq2 {α : Type} (n a : String) (f : Val → Option α)
    (ch : List (String × Val)) : Option α :=
  match lookup2 n a ch with
  | .found v => f v
  | _ => Option.none

def readD1 {α : Type} (n : String) (f : Val → Option α) (d : α)
    (ch : List (String × Val)) : Option α :=
  match lookup n ch with
  | Option.none => Option.some d
  | Option.some v => f v

def readD2 {α : Type} (n a : String) (f : Val → Option α) (d : α)
    (ch : List (String × Val)) : Option α :=
  match lookup2 n a ch with
  | .dup => Option.none
  | .absent => Option.some d
  | .found v => f v

/-- The `optional_*_separated` readers swallow decode errors into `None`
(their `deserialize` maps `Err` to `Ok(None)`). -/
def readOptSep1 (n : String) (c : Char) (ch : List (String × Val)) :
    Option (Option (List Str)) :=
  match lookup n ch with
  | Option.none => Option.some Option.none
  | Option.some v => Option.some ((asText v).map (decodeSep c))

def readOptSep2 (n a : String) (c : Char) (ch : List (String × Val)) :
    Option (Option (List Str)) :=
  match lookup2 n a ch with
  | .dup => Option.none
  | .absent => Option.some Option.none
  | .found v => Option.some ((asText v).map (decodeSep c))

def mapOpt {α β : Type} (f : α → Option β) : List α → Option (List β)
  | [] => Option.some []
  | a :: as => do
    let b ← f a
    let bs ← mapOpt f as
    Option.some (b :: bs)

def parseKnownPackageType (s : Str) : KnownPackageType :=
  if s = ktDependencyV then .dependency
  else if s = ktDotnetToolV then .dotnetTool
  else if s = ktMSBuildSdkV then .msbuildSdk
  else if s = ktTemplateV then .template
  else .custom s

def parseBuildAction (s : Str) : Option BuildAction :=
  if s = baContentV then Option.some .content
  else if s = baNoneV then Option.some .none
  else if s = baEmbeddedResourceV then Option.some .embeddedResource
  else if s = baCompileV then Option.some .compile
  else Option.none

def deserializeLicense : Val → Option License
  | .node ch =>
    match lookup typeAttrN ch, lookup textN ch with
    | Option.some (.text t), Option.some (.text s) =>
      if t = expressionV then Option.some (.expression s)
      else if t = fileV then Option.some (.file s)
      else Option.none
    | _, _ => Option.none
  | _ => Option.none

def deserializeRepository : Val → Option Repository
  | .node ch => do
    let t ← readOpt2 typeAttrN typeA asText ch
    let u ← readOpt2 urlAttrN urlA asText ch
    let b ← readOpt2 branchAttrN branchA asText ch
    let c ← readOpt2 commitAttrN commitA asText ch
    Option.some { repository_type := t, url := u, branch := b, commit := c }
  | _ => Option.none

def deserializePackageType : Val → Option PackageType
  | .node ch => do
    let nm ← readReq2 nameAttrN nameA asText ch
    let v ← readOpt2 versionAttrN versionN asText ch
    Option.some { name := parseKnownPackageType nm, version := v }
  | _ => Option.none

def deserializePackageTypes : Val → Option PackageTypes
  | .node ch => do
    let vs ← readReq2 packageTypeN packageTypeA asVals ch
    let pts ← mapOpt deserializePackageType vs
    Option.some { package_type := pts }
  | _ => Option.none

def deserializeDependency : Val → Option Dependency
  | .node ch => do
    let i ← readReq2 idAttrN idN asText ch
    let v ← readReq2 versionAttrN versionN asText ch
    let inc ← readOptSep2 includeAttrN includeA ',' ch
    let exc ← readOptSep2 excludeAttrN excludeA ',' ch
    Option.some { id := i, version := v, incl := inc, exclude := exc }
  | _ => Option.none

def deserializeDependencyGroup : Val → Option DependencyGroup
  | .node ch => do
    let tf ← readOpt2 targetFrameworkAttrN targetFrameworkA asText ch
    let vs ← readReq1 dependencyN asVals ch
    let ds ← mapOpt deserializeDependency vs
    Option.some { target_framework := tf, dependency := ds }
  | _ => Option.none

def deserializeDependencies : Val → Option Dependencies
  | .node ch => do
    let d ← readOpt1 dependencyN (fun v => (asVals v).bind (mapOpt deserializeDependency)) ch
    let g ← readOpt1 groupN (fun v => (asVals v).bind (mapOpt deserializeDependencyGroup)) ch
    Option.some { dependency := d, group := g }
  | _ => Option.none

def deserializeFrameworkAssembly : Val → Option FrameworkAssembly
  | .node ch => do
    let an ← readReq2 assemblyNameAttrN assemblyNameA asText ch
    let tf ← readOpt2 targetFrameworkAttrN targetFrameworkA asText ch
    Option.some { assembly_name := an, target_framework := tf }
  | _ => Option.none

def deserializeFrameworkAssemblies : Val → Option FrameworkAssemblies
  | .node ch => do
    let vs ← readReq2 frameworkAssemblyN frameworkAssemblyA asVals ch
    let fas ← mapOpt deserializeFrameworkAssembly vs
    Option.some { framework_assembly := fas }
  | _ => Option.none

def deserializeReference : Val → Option Reference
  | .node ch => do
    let f ← readReq2 fileAttrN fileA asText ch
    Option.some { file := f }
  | _ => Option.none

def deserializeReferenceGroup : Val → Option ReferenceGroup
  | .node ch => do
    let tf ← readOpt2 targetFrameworkAttrN targetFrameworkA asText ch
    let vs ← readReq1 referenceN asVals ch
    let rs ← mapOpt deserializeReference vs
    Option.some { target_framework := tf, reference := rs }
  | _ => Option.none

def deserializeReferences : Val → Option References
  | .node ch => do
    let r ← readOpt1 referenceN (fun v => (asVals v).bind (mapOpt deserializeReference)) ch
    let g ← readOpt1 groupN (fun v => (asVals v).bind (mapOpt deserializeReferenceGroup)) ch
    Option.some { reference := r, group := g }
  | _ => Option.none

def deserializeContentFile : Val → Option ContentFile
  | .node ch => do
    let i ← readReq2 includeAttrN includeA asText ch
    let exc ← readOptSep2 excludeAttrN excludeA ';' ch
    let ba ← readOpt2 buildActionAttrN buildActionA (fun v => (asText v).bind parseBuildAction) ch
    let co ← readOpt2 copyToOutputAttrN copyToOutputA asBool ch
    let fl ← readOpt2 flattenAttrN flattenA asBool ch
    Option.some { incl := i, exclude := exc, build_action := ba, copy_to_output := co, flatten := fl }
  | _ => Option.none

def deserializeContentFiles : Val → Option ContentFiles
  | .node ch => do
    let vs ← readReq1 filesN asVals ch
    let cfs ← mapOpt deserializeContentFile vs
    Option.some { files := cfs }
  | _ => Option.none

def deserializeFile : Val → Option File
  | .node ch => do
    let s ← readReq2 srcAttrN srcA asText ch
    let t ← readOpt2 targetAttrN targetA asText ch
    let exc ← readOptSep2 excludeAttrN excludeA ';' ch
    Option.some { src := s, target := t, exclude := exc }
  | _ => Option.none

def deserializeFiles : Val → Option Files
  | .node ch => do
    let vs ← readReq1 fileN asVals ch
    let fs ← mapOpt deserializeFile vs
    Option.some { file := fs }
  | _ => Option.none

/-- Identity, authors, URL and license fields of `Metadata` (the
deserializer is split into stages only to keep each `do`-chain short). -/
def dmStage1 (ch : List (String × Val)) : Option Metadata := do
  let i ← readD1 idN asText [] ch
  let ver ← readD1 versionN asText [] ch
  let desc ← readD2 descriptionN summaryA asText [] ch
  let auth ← readD2 authorsN ownersA (fun v => (asText v).map (decodeSep ',')) [] ch
  let purl ← readOpt2 projectUrlN projectUrlA asText ch
  let lic ← readOpt1 licenseN deserializeLicense ch
  Option.some { id := i, version := ver, description := desc, authors := auth,
                project_url := purl, license := lic }

/-- Icon, readme, flags and release-note fields. -/
def dmStage2 (ch : List (String × Val)) (m : Metadata) : Option Metadata := do
  let ico ← readOpt1 iconN asText ch
  let rdme ← readOpt1 readmeN asText ch
  let rla ← readOpt2 requireLicenseAcceptanceN requireLicenseAcceptanceA asBool ch
  let dd ← readOpt2 developmentDependencyN developmentDependencyA asBool ch
  let rn ← readOpt2 releaseNotesN releaseNotesA asText ch
  Option.some { m with
    icon := ico, readme := rdme, require_license_acceptance := rla,
    development_dependency := dd, release_notes := rn }

/-- Copyright, language, tags, repository, title and client-version fields. -/
def dmStage3 (ch : List (String × Val)) (m : Metadata) : Option Metadata := do
  let cw ← readOpt1 copyrightN asText ch
  let lang ← readOpt1 languageN asText ch
  let tg ← readOptSep1 tagsN ' ' ch
  let rep ← readOpt1 repositoryN deserializeRepository ch
  let ttl ← readOpt1 titleN asText ch
  let mcv ← readOpt2 minClientVersionN minClientVersionA asText ch
  Option.some { m with
    copyright := cw, language := lang, tags := tg,
    repository := rep, title := ttl, min_client_version := mcv }

/-- The nested collection fields. -/
def dmStage4 (ch : List (String × Val)) (m : Metadata) : Option Metadata := do
  let pt ← readOpt2 packageTypesN packageTypesA deserializePackageTypes ch
  let dep ← readOpt1 dependenciesN deserializeDependencies ch
  let fa ← readOpt2 frameworkAssembliesN frameworkAssembliesA deserializeFrameworkAssemblies ch
  let refs ← readOpt1 referencesN deserializeReferences ch
  let cf ← readOpt2 contentFilesN contentFilesA deserializeContentFiles ch
  Option.some { m with
    package_types := pt, dependencies := dep,
    framework_assemblies := fa, references := refs, content_files := cf }

def deserializeMetadata (ch : List (String × Val)) : Option Metadata := do
  let m ← dmStage1 ch
  let m ← dmStage2 ch m
  let m ← dmStage3 ch m
  dmStage4 ch m

def deserializePackage (v : Val) : Option Package :=
  match v with
  | .node ch => do
    let n ← readOpt2 xmlnsN xmlnsA asText ch
    let md ← readD1 metadataN
      (fun w => match w with | .node mch => deserializeMetadata mch | _ => Option.none)
      ({} : Metadata) ch
    let fs ← readOpt1 filesN deserializeFiles ch
    Option.some { ns := n, metadata := md, files := fs }
  | _ => Option.none

/-! ## The generation engine (`generate.rs`)

`load_package_config` is embedded as a pure staged pipeline over:

* a `Platform` value standing for the `cfg(target_os)` / `cfg(target_env)`
  conditional compilation;
* an `Env` record of the `CARGO_*` environment variables (absent = `Err` from
  `env::var`);
* a canonicalization oracle `Canon` standing for `fs::canonicalize`: it maps a
  path string to the components of its canonical form (`Option.none` = the
  path does not exist), with the root/volume component kept separate;
* the result of `get_build_artifacts_path` (`artRes`) and of
  `get_workspace_manifest_path` (`wsmRes`), passed in as oracles — their
  internal directory walks involve no claimed behaviour;
* the already-resolved output directory `outDir` (the manifest reading and
  `out_dir` resolution / creation of lines 103–130 are I/O preamble outside
  the claims).

A computation can diverge: `Res.hang` records that the source would loop
forever, which matters because the component-skipping loop of
`get_relative_path` never exits when both iterators are exhausted
(`None == None` keeps the `while` condition true). -/

inductive Res (α : Type) where
  | hang : Res α
  | err : Res α
  | ok : α → Res α
deriving DecidableEq

def Res.bind {α β : Type} : Res α → (α → Res β) → Res β
  | .hang, _ => .hang
  | .err, _ => .err
  | .ok a, f => f a

/-- Rust `Result::unwrap_or` on a possibly diverging computation: an error is
replaced by the default, but divergence never reaches the `unwrap_or`. -/
def Res.unwrapOr {α : Type} : Res α → α → Res α
  | .hang, _ => .hang
  | .err, d => .ok d
  | .ok a, _ => .ok a

/-- `env::var(..)?`: an absent variable aborts with an error. -/
def Res.ofOption {α : Type} : Option α → Res α
  | Option.some a => .ok a
  | Option.none => .err

/-- The `cfg(target_os)` / `cfg(target_env)` split that `generate.rs`
compiles under; the `windows` payload is whether `target_env = "msvc"`. -/
inductive Platform where
  | windows : Bool → Platform
  | macos : Platform
  | otherUnix : Platform
deriving DecidableEq

/-- The `CARGO_*` build-context variables read by `load_package_config`. -/
structure Env where
  pkgName : Option Str := Option.none
  version : Option Str := Option.none
  description : Option Str := Option.none
  authors : Option Str := Option.none
  homepage : Option Str := Option.none
  license : Option Str := Option.none
  licenseFile : Option Str := Option.none
  repository : Option Str := Option.none
  readme : Option Str := Option.none
deriving DecidableEq

/-- A canonical (absolute, symlink-free) path: its root/volume component and
the remaining normal components. -/
structure CanonPath where
  root : Str
  comps : List Str
deriving DecidableEq

/-- The `fs::canonicalize` oracle. -/
abbrev Canon := Str → Option CanonPath

/-- `to_string_lossy` of a canonical path. -/
def renderAbs (p : CanonPath) : Str := p.root ++ joinSep '/' p.comps

/-- Outcome of the common-component-skipping `while` loop of
`get_relative_path` (lines 508–513): either the first differing pull from the
two component iterators together with what remains behind each, or divergence
(both iterators exhausted — `None == None` holds and the loop never exits). -/
inductive SkipOut where
  | hang : SkipOut
  | done : Option Str → List Str → Option Str → List Str → SkipOut
deriving DecidableEq

def skipCommon : List Str → List Str → SkipOut
  | [], [] => .hang
  | [], t :: ts => .done Option.none [] (Option.some t) ts
  | f :: fs, [] => .done (Option.some f) fs Option.none []
  | f :: fs, t :: ts =>
    if f = t then skipCommon fs ts
    else .done (Option.some f) fs (Option.some t) ts

/-- `get_relative_path(from_dir, to_file)`: canonicalize both (target first),
return the canonical absolute target when the root components differ, and
otherwise `..` segments for what remains of the base followed by what remains
of the target. -/
def getRelativePath (canon : Canon) (fromDir toFile : Str) : Res Str :=
  match canon toFile with
  | Option.none => .err
  | Option.some toC =>
    match canon fromDir with
    | Option.none => .err
    | Option.some fromC =>
      if fromC.root ≠ toC.root then .ok (renderAbs toC)
      else
        match skipCommon fromC.comps toC.comps with
        | .hang => .hang
        | .done fc fs tc ts =>
          let dots : List Str :=
            match fc with
            | Option.some _ => List.replicate (1 + fs.length) ['.', '.']
            | Option.none => []
          let rest : List Str :=
            match tc with
            | Option.some t => t :: ts
            | Option.none => []
          .ok (joinSep '/' (dots ++ rest))

/-- `push_file`: drop the entry when the new source has no file name or when
some present entry's `src` ends with that file name; otherwise append it with
`target/basename` as target. -/
def push_file (files : List File) (src : Str) (target : Str) : List File :=
  match fileName src with
  | Option.none => files
  | Option.some b =>
    if files.any (fun f => b.isSuffixOf f.src) then files
    else files ++ [{ src := src, target := Option.some (pathJoin target b), exclude := Option.none }]

/-! ### The manifest model (the `toml`-deserialized structs of `generate.rs`) -/

structure ManifestBinary where
  name : Str
deriving DecidableEq

inductive ManifestCrateType where
  | bin
  | lib
  | rlib
  | dylib
  | cdylib
  | staticlib
  | procMacroType
deriving DecidableEq

structure ManifestLibrary where
  name : Option Str := Option.none
  crate_type : Option (List ManifestCrateType) := Option.none
deriving DecidableEq

/-- `keywords` is either a direct list or the `{ workspace = bool }`
delegation marker. -/
inductive ManifestPackageKeywords where
  | keywords : List Str → ManifestPackageKeywords
  | workspace : Bool → ManifestPackageKeywords
deriving DecidableEq

structure ManifestPackageMetadataNuspec where
  package : Option Package := Option.none
deriving DecidableEq

structure ManifestPackageMetadata where
  nuspec : Option ManifestPackageMetadataNuspec := Option.none
deriving DecidableEq

structure ManifestPackage where
  keywords : Option ManifestPackageKeywords := Option.none
  metadata : Option ManifestPackageMetadata := Option.none
deriving DecidableEq

structure Manifest where
  package : Option ManifestPackage := Option.none
  binary : Option (List ManifestBinary) := Option.none
  lib : Option ManifestLibrary := Option.none
deriving DecidableEq

structure WorkspaceManifest where
  workspace : Option Manifest := Option.none
deriving DecidableEq

/-! ### The resolution stages (lines 131–266) -/

/-- Lines 108–113 and 131: the user-declared spec from
`package.metadata.nuspec.package`, defaulted at every step. -/
def nuspecPackage (mpackage : Option ManifestPackage) : Package :=
  ((((mpackage.bind (fun p => p.metadata)).bind (fun m => m.nuspec)).getD {}).package).getD {}

def initialPackage (manifest : Manifest) : Package :=
  nuspecPackage manifest.package

/-- Lines 133–138: resolve every relative `src` of the user-declared file list
against the output directory. -/
def rewriteFiles (canon : Canon) (outDir : Str) : List File → Res (List File)
  | [] => .ok []
  | f :: rest =>
    if isAbsolutePath f.src then
      Res.bind (rewriteFiles canon outDir rest) (fun rs => .ok (f :: rs))
    else
      Res.bind (getRelativePath canon outDir f.src) (fun s =>
        Res.bind (rewriteFiles canon outDir rest) (fun rs => .ok ({ f with src := s } :: rs)))

def applyId (pkgName : Str) (pkg : Package) : Package :=
  if pkg.metadata.id = [] then
    { pkg with metadata := { pkg.metadata with id := pkgName } }
  else pkg

def applyVersion (env : Env) (pkg : Package) : Package :=
  if pkg.metadata.version = [] then
    { pkg with metadata := { pkg.metadata with version := env.version.getD [] } }
  else pkg

def applyDescription (env : Env) (pkg : Package) : Package :=
  if pkg.metadata.description = [] then
    { pkg with metadata := { pkg.metadata with description := env.description.getD [] } }
  else pkg

/-- Lines 151–155: split the (possibly absent) author variable at `':'` and
trim each piece. -/
def splitColonTrim (s : Str) : List Str := (splitChar ':' s).map trimStr

def applyAuthors (env : Env) (pkg : Package) : Package :=
  if pkg.metadata.authors = [] then
    { pkg with metadata := { pkg.metadata with authors := splitColonTrim (env.authors.getD []) } }
  else pkg

/-- The recurring `match env::var(..) { Ok(v) if not empty => Some(v), _ => None }`. -/
def nonEmptyEnv (v : Option Str) : Option Str :=
  match v with
  | Option.some s => if s = [] then Option.none else Option.some s
  | Option.none => Option.none

def applyProjectUrl (env : Env) (pkg : Package) : Package :=
  if pkg.metadata.project_url.isNone then
    { pkg with metadata := { pkg.metadata with project_url := nonEmptyEnv env.homepage } }
  else pkg

def applyLicenseExpression (env : Env) (pkg : Package) : Package :=
  if pkg.metadata.license.isNone then
    { pkg with metadata := { pkg.metadata with license := (nonEmptyEnv env.license).map License.expression } }
  else pkg

/-- Lines 181–199: when no license is set yet, resolve the license-file
variable relative to the output directory, record the `File`-variant license
under the file's basename, and push a file entry targeting the package root. -/
def applyLicenseFile (env : Env) (canon : Canon) (outDir : Str) (pkg : Package)
    (files : List File) : Res (Package × List File) :=
  if pkg.metadata.license.isNone then
    match env.licenseFile with
    | Option.none => .ok (pkg, files)
    | Option.some path =>
      if path = [] then .ok (pkg, files)
      else
        Res.bind (getRelativePath canon outDir path) (fun licensePath =>
          match fileName licensePath with
          | Option.none => .err
          | Option.some b =>
            .ok ({ pkg with metadata := { pkg.metadata with license := Option.some (License.file b) } },
              push_file files licensePath []))
  else .ok (pkg, files)

/-- Lines 169–199: the whole license derivation (environment SPDX expression
first, then the environment license file). -/
def resolveLicense (env : Env) (canon : Canon) (outDir : Str) (pkg : Package)
    (files : List File) : Res (Package × List File) :=
  applyLicenseFile env canon outDir (applyLicenseExpression env pkg) files

/-- Lines 202–232: keywords from the manifest package block, resolving one
level of workspace delegation (the workspace manifest is only fetched when the
delegation marker is set). -/
def tagsFromManifest (wsmRes : Res WorkspaceManifest)
    (mpackage : Option ManifestPackage) : Res (Option (List Str)) :=
  match mpackage with
  | Option.none => .ok Option.none
  | Option.some p =>
    match p.keywords with
    | Option.none => .ok Option.none
    | Option.some (.keywords ks) => .ok (Option.some ks)
    | Option.some (.workspace w) =>
      if w then
        Res.bind wsmRes (fun wsm =>
          .ok (match wsm.workspace with
            | Option.some wm =>
              (wm.package.bind (fun q => q.keywords)).bind (fun k =>
                match k with
                | .keywords ks => Option.some ks
                | .workspace _ => Option.none)
            | Option.none => Option.none))
      else .ok Option.none

def applyTags (wsmRes : Res WorkspaceManifest) (mpackage : Option ManifestPackage)
    (pkg : Package) : Res Package :=
  if pkg.metadata.tags.isNone then
    Res.bind (tagsFromManifest wsmRes mpackage) (fun t =>
      .ok { pkg with metadata := { pkg.metadata with tags := t } })
  else .ok pkg

def applyRepository (env : Env) (pkg : Package) : Package :=
  if pkg.metadata.repository.isNone then
    { pkg with metadata := { pkg.metadata with
        repository := (nonEmptyEnv env.repository).map (fun u => { url := Option.some u }) } }
  else pkg

/-- Lines 250–266: like the license file, but the metadata field receives the
basename and the file entry the resolved path. -/
def applyReadme (env : Env) (canon : Canon) (outDir : Str) (pkg : Package)
    (files : List File) : Res (Package × List File) :=
  if pkg.metadata.readme.isNone then
    match env.readme with
    | Option.none => .ok (pkg, files)
    | Option.some path =>
      if path = [] then .ok (pkg, files)
      else
        Res.bind (getRelativePath canon outDir path) (fun readmePath =>
          match fileName readmePath with
          | Option.none => .err
          | Option.some b =>
            .ok ({ pkg with metadata := { pkg.metadata with readme := Option.some b } },
              push_file files readmePath []))
  else .ok (pkg, files)

/-! ### File-list synthesis (lines 268–444) -/

def toolsT : Str := "tools".toList
def libT : Str := "lib".toList

def noCrateTypeWarning : String :=
  "cargo:warning=No `crate-type` specified for the `lib` crate, please choose a more specific or configure a files section manually."

def libNotSupportedWarning : String :=
  "cargo:warning=A `lib` crate-type is not supported, please choose a more specific or configure a files section manually."

def procMacroNotSupportedWarning : String :=
  "cargo:warning=A `proc-macro` crate-type is not supported, please choose a more specific or configure a files section manually."

/-- Lines 268–308: one declared binary.  Path resolution failure falls back to
the bare declared name (`unwrap_or`); on Windows the `.exe` and (from the
dash-to-underscore name) `.pdb` companions are pushed, elsewhere the plain
artifact. -/
def processBinary (plat : Platform) (canon : Canon) (outDir artPath : Str)
    (files : List File) (b : ManifestBinary) : Res (List File) :=
  Res.bind (Res.unwrapOr (getRelativePath canon outDir (pathJoin artPath b.name)) b.name)
    (fun rel =>
      match plat with
      | .windows _ =>
        let files := push_file files (withExtension rel ("exe".toList)) toolsT
        let nameU := replaceDash b.name
        Res.bind (Res.unwrapOr (getRelativePath canon outDir (pathJoin artPath nameU)) nameU)
          (fun rel2 => .ok (push_file files (withExtension rel2 ("pdb".toList)) toolsT))
      | _ => .ok (push_file files rel toolsT))

def processBinaries (plat : Platform) (canon : Canon) (outDir artPath : Str) :
    List File → List ManifestBinary → Res (List File)
  | files, [] => .ok files
  | files, b :: rest =>
    Res.bind (processBinary plat canon outDir artPath files b) (fun fs =>
      processBinaries plat canon outDir artPath fs rest)

/-- Lines 327–442: one declared crate type of the library block, mapped to
pushed artifact file entries and/or an advisory warning. -/
def processCrateType (plat : Platform) (name rel : Str) (files : List File) :
    ManifestCrateType → List File × List String
  | .bin =>
    match plat with
    | .windows _ =>
      (push_file (push_file files (withExtension rel ("exe".toList)) toolsT)
        (withExtension rel ("pdb".toList)) toolsT, [])
    | _ => (push_file files rel toolsT, [])
  | .lib => (files, [libNotSupportedWarning])
  | .rlib =>
    (push_file files (withFileName rel (("lib".toList) ++ name ++ (".rlib".toList))) libT, [])
  | .dylib =>
    match plat with
    | .windows _ =>
      (push_file (push_file files (withExtension rel ("dll".toList)) libT)
        (withExtension rel ("pdb".toList)) libT, [])
    | .macos =>
      (push_file files (withFileName rel (("lib".toList) ++ name ++ (".dylib".toList))) libT, [])
    | .otherUnix =>
      (push_file files (withFileName rel (("lib".toList) ++ name ++ (".so".toList))) libT, [])
  | .cdylib =>
    match plat with
    | .windows _ =>
      (push_file (push_file files (withExtension rel ("dll".toList)) libT)
        (withExtension rel ("pdb".toList)) libT, [])
    | .macos =>
      (push_file files (withFileName rel (("lib".toList) ++ name ++ (".dylib".toList))) libT, [])
    | .otherUnix =>
      (push_file files (withFileName rel (("lib".toList) ++ name ++ (".so".toList))) libT, [])
  | .staticlib =>
    match plat with
    | .windows true => (push_file files (withExtension rel ("lib".toList)) libT, [])
    | _ => (push_file files (withFileName rel (("lib".toList) ++ name ++ (".a".toList))) libT, [])
  | .procMacroType => (files, [procMacroNotSupportedWarning])

def processCrateTypes (plat : Platform) (name rel : Str) (files : List File) :
    List ManifestCrateType → List File × List String
  | [] => (files, [])
  | ct :: rest =>
    let fw := processCrateType plat name rel files ct
    let fw2 := processCrateTypes plat name rel fw.1 rest
    (fw2.1, fw.2 ++ fw2.2)

/-- Lines 316–443 once the artifact path is resolved (or fallen back to the
bare crate name): a missing or empty `crate-type` list warns, each listed
crate type is processed in order. -/
def processLibResolved (plat : Platform) (name rel : Str)
    (crateTypes : Option (List ManifestCrateType)) (files : List File) :
    List File × List String :=
  match crateTypes with
  | Option.none => (files, [noCrateTypeWarning])
  | Option.some cts =>
    let w0 := if cts = [] then [noCrateTypeWarning] else []
    let fw := processCrateTypes plat name rel files cts
    (fw.1, w0 ++ fw.2)

/-- Lines 309–444: the library block.  The crate name defaults to the package
name with dashes replaced; path resolution failure is non-fatal. -/
def processLib (plat : Platform) (canon : Canon) (outDir artPath : Str)
    (pkgName : Str) (lib : Option ManifestLibrary) (files : List File) :
    Res (List File × List String) :=
  match lib with
  | Option.none => .ok (files, [])
  | Option.some l =>
    let name := l.name.getD (replaceDash pkgName)
    Res.bind (Res.unwrapOr (getRelativePath canon outDir (pathJoin artPath name)) name)
      (fun rel => .ok (processLibResolved plat name rel l.crate_type files))

/-- Everything `load_package_config` computes before the library block; split
out so that the claims about the library block can reuse it verbatim. -/
structure LoadState where
  art : Str
  pkgName : Str
  pkg : Package
  files : List File
deriving DecidableEq

def loadCore (plat : Platform) (env : Env) (canon : Canon) (artRes : Res Str)
    (wsmRes : Res WorkspaceManifest) (mpackage : Option ManifestPackage)
    (mbinary : Option (List ManifestBinary)) (outDir : Str) : Res LoadState :=
  Res.bind artRes (fun art =>
  Res.bind (rewriteFiles canon outDir (((nuspecPackage mpackage).files.getD { file := [] }).file))
    (fun files =>
  Res.bind (Res.ofOption env.pkgName) (fun pkgName =>
  let pkg := applyLicenseExpression env (applyProjectUrl env (applyAuthors env
    (applyDescription env (applyVersion env (applyId pkgName (nuspecPackage mpackage))))))
  Res.bind (applyLicenseFile env canon outDir pkg files) (fun pf =>
  Res.bind (applyTags wsmRes mpackage pf.1) (fun pkg2 =>
  Res.bind (applyReadme env canon outDir (applyRepository env pkg2) pf.2) (fun pf2 =>
  Res.bind (processBinaries plat canon outDir art pf2.2 (mbinary.getD [])) (fun files2 =>
  .ok { art := art, pkgName := pkgName, pkg := pf2.1, files := files2 })))))))

/-- Lines 103–452: `load_package_config`, returning the resolved package
together with the `cargo:warning` lines it printed. -/
def loadPackageConfig (plat : Platform) (env : Env) (canon : Canon) (artRes : Res Str)
    (wsmRes : Res WorkspaceManifest) (manifest : Manifest) (outDir : Str) :
    Res (Package × List String) :=
  Res.bind (loadCore plat env canon artRes wsmRes manifest.package manifest.binary outDir)
    (fun s =>
  Res.bind (processLib plat canon outDir s.art s.pkgName manifest.lib s.files) (fun fw =>
  .ok ({ s.pkg with files := if fw.1 = [] then Option.none else Option.some { file := fw.1 } },
    fw.2)))


/-! ## Validity: the values the delimiter codecs and name-based encodings can
represent losslessly

The spec's round-trip property is stated "for any valid `PackageSpec`".
`validPackage` makes that precise from the encodings of `spec.rs`:

* every delimiter-joined list field has separator-free, trim-stable entries
  and is not the singleton empty string (`[""]` encodes as `""`, which decodes
  to `[]`);
* a `Custom` package-type name must not spell one of the four known names
  (those deserialize to the known variant);
* the repeated-element collections are non-empty (an empty collection
  serializes to an element with no children, from which a field that has no
  `serde` default cannot be recovered).
-/

def optSepListOk (c : Char) : Option (List Str) → Bool
  | Option.none => true
  | Option.some l => sepListOk c l

def ktOk : KnownPackageType → Bool
  | .custom s =>
    decide (s ≠ ktDependencyV) && decide (s ≠ ktDotnetToolV) &&
    decide (s ≠ ktMSBuildSdkV) && decide (s ≠ ktTemplateV)
  | _ => true

def packageTypesOk (pts : PackageTypes) : Bool :=
  decide (pts.package_type ≠ []) && pts.package_type.all (fun pt => ktOk pt.name)

def dependencyOk (d : Dependency) : Bool :=
  optSepListOk ',' d.incl && optSepListOk ',' d.exclude

def dependenciesOk (dp : Dependencies) : Bool :=
  (match dp.dependency with
   | Option.none => true
   | Option.some l => decide (l ≠ []) && l.all dependencyOk) &&
  (match dp.group with
   | Option.none => true
   | Option.some l =>
     decide (l ≠ []) && l.all (fun g => decide (g.dependency ≠ []) && g.dependency.all dependencyOk))

def frameworkAssembliesOk (f : FrameworkAssemblies) : Bool :=
  decide (f.framework_assembly ≠ [])

def referencesOk (r : References) : Bool :=
  (match r.reference with
   | Option.none => true
   | Option.some l => decide (l ≠ [])) &&
  (match r.group with
   | Option.none => true
   | Option.some l => decide (l ≠ []) && l.all (fun g => decide (g.reference ≠ [])))

def contentFilesOk (c : ContentFiles) : Bool :=
  decide (c.files ≠ []) && c.files.all (fun cf => optSepListOk ';' cf.exclude)

def fileOk (f : File) : Bool := optSepListOk ';' f.exclude

def filesOk (fs : Files) : Bool :=
  decide (fs.file ≠ []) && fs.file.all fileOk

def metadataOk (m : Metadata) : Bool :=
  sepListOk ',' m.authors && optSepListOk ' ' m.tags &&
  (match m.package_types with
   | Option.none => true
   | Option.some p => packageTypesOk p) &&
  (match m.dependencies with
   | Option.none => true
   | Option.some d => dependenciesOk d) &&
  (match m.framework_assemblies with
   | Option.none => true
   | Option.some f => frameworkAssembliesOk f) &&
  (match m.references with
   | Option.none => true
   | Option.some r => referencesOk r) &&
  (match m.content_files with
   | Option.none => true
   | Option.some c => contentFilesOk c)

def validPackage (p : Package) : Bool :=
  metadataOk p.metadata &&
  (match p.files with
   | Option.none => true
   | Option.some fs => filesOk fs)

/-! ## Lookup lemmas for the serialized form -/

theorem lookup_nil (n : String) : lookup n [] = Option.none := rfl

theorem lookup_reqE_self (n : String) (v : Val) (rest : List (String × Val)) :
    lookup n (reqE n v ++ rest) = Option.some v := by
  simp [reqE, lookup]

theorem lookup_reqE_ne (n k : String) (v : Val) (rest : List (String × Val)) (h : ¬ k = n) :
    lookup n (reqE k v ++ rest) = lookup n rest := by
  simp [reqE, lookup, h]

theorem lookup_optE_self_some (n : String) (x : Val) (rest : List (String × Val)) :
    lookup n (optE n (Option.some x) ++ rest) = Option.some x := by
  simp [optE, lookup]

theorem lookup_optE_self_none (n : String) (rest : List (String × Val)) :
    lookup n (optE n Option.none ++ rest) = lookup n rest := rfl

theorem lookup_optE_ne (n k : String) (v : Option Val) (rest : List (String × Val))
    (h : ¬ k = n) : lookup n (optE k v ++ rest) = lookup n rest := by
  cases v <;> simp [optE, lookup, h]

theorem lookup_optE_last_some (n : String) (x : Val) :
    lookup n (optE n (Option.some x)) = Option.some x := by
  simp [optE, lookup]

theorem lookup_optE_last_none (n : String) : lookup n (optE n Option.none) = Option.none := rfl

theorem lookup_optE_last_ne (n k : String) (v : Option Val) (h : ¬ k = n) :
    lookup n (optE k v) = Option.none := by
  cases v <;> simp [optE, lookup, h]

theorem lookup_reqE_last_self (n : String) (v : Val) : lookup n (reqE n v) = Option.some v := by
  simp [reqE, lookup]

theorem lookup_reqE_last_ne (n k : String) (v : Val) (h : ¬ k = n) :
    lookup n (reqE k v) = Option.none := by
  simp [reqE, lookup, h]

theorem mapOpt_map {α β : Type} (f : β → Option α) (g : α → β) (l : List α)
    (h : ∀ x ∈ l, f (g x) = Option.some x) : mapOpt f (l.map g) = Option.some l := by
  induction l with
  | nil => rfl
  | cons x xs ih =>
    simp only [List.map_cons, mapOpt, h x (by simp), Option.bind,
      ih (fun a ha => h a (by simp [ha]))]
    rfl

/-! ## Round-trip of the nested structures -/

theorem deserializeLicense_roundtrip (l : License) :
    deserializeLicense (serializeLicense l) = Option.some l := by
  cases l <;> rfl

theorem deserializeRepository_roundtrip (r : Repository) :
    deserializeRepository (serializeRepository r) = Option.some r := by
  obtain ⟨t, u, b, c⟩ := r
  cases t <;> cases u <;> cases b <;> cases c <;> rfl

theorem parseKnownPackageType_roundtrip (k : KnownPackageType) (h : ktOk k = true) :
    parseKnownPackageType (knownPackageTypeStr k) = k := by
  cases k with
  | custom s =>
    simp only [ktOk, Bool.and_eq_true, decide_eq_true_eq] at h
    simp [parseKnownPackageType, knownPackageTypeStr, h.1.1.1, h.1.1.2, h.1.2, h.2]
  | dependency => rfl
  | dotnetTool => rfl
  | msbuildSdk => rfl
  | template => rfl

theorem asBool_boolStr (b : Bool) : asBool (Val.text (boolStr b)) = Option.some b := by
  cases b <;> rfl

theorem parseBuildAction_buildActionStr (a : BuildAction) :
    parseBuildAction (buildActionStr a) = Option.some a := by
  cases a <;> rfl

theorem deserializePackageType_roundtrip (pt : PackageType) (h : ktOk pt.name = true) :
    deserializePackageType (serializePackageType pt) = Option.some pt := by
  obtain ⟨nm, v⟩ := pt
  cases v <;>
    simp [serializePackageType, deserializePackageType, readReq2, readOpt2, lookup2,
      reqE, optE, lookup, asText, parseKnownPackageType_roundtrip nm h]

theorem deserializePackageTypes_roundtrip (pts : PackageTypes)
    (h : packageTypesOk pts = true) :
    deserializePackageTypes (serializePackageTypes pts) = Option.some pts := by
  simp only [packageTypesOk, Bool.and_eq_true, List.all_eq_true] at h
  simp [serializePackageTypes, deserializePackageTypes, readReq2, lookup2, reqE, lookup,
    asVals, mapOpt_map _ _ _ (fun pt hpt => deserializePackageType_roundtrip pt (h.2 pt hpt))]

theorem deserializeDependency_roundtrip (d : Dependency) (h : dependencyOk d = true) :
    deserializeDependency (serializeDependency d) = Option.some d := by
  obtain ⟨i, v, inc, exc⟩ := d
  simp only [dependencyOk, optSepListOk, Bool.and_eq_true] at h
  cases inc <;> cases exc <;>
    simp_all [serializeDependency, deserializeDependency, readReq2, readOptSep2, lookup2,
      reqE, optE, lookup, asText, decodeSep_encodeSep]

theorem deserializeDependencyGroup_roundtrip (g : DependencyGroup)
    (h : g.dependency.all dependencyOk = true) :
    deserializeDependencyGroup (serializeDependencyGroup g) = Option.some g := by
  obtain ⟨tf, ds⟩ := g
  simp only [List.all_eq_true] at h
  cases tf <;>
    simp [serializeDependencyGroup, deserializeDependencyGroup, readOpt2, readReq1, lookup2,
      reqE, optE, lookup, asText, asVals,
      mapOpt_map _ _ _ (fun d hd => deserializeDependency_roundtrip d (h d hd))]

theorem deserializeDependencies_roundtrip (dp : Dependencies) (h : dependenciesOk dp = true) :
    deserializeDependencies (serializeDependencies dp) = Option.some dp := by
  obtain ⟨dep, grp⟩ := dp
  simp only [dependenciesOk, Bool.and_eq_true] at h
  obtain ⟨h1, h2⟩ := h
  have hdep : ∀ l, dep = Option.some l → ∀ d ∈ l, dependencyOk d = true := by
    intro l hl d hd
    subst hl
    simp only [Bool.and_eq_true, List.all_eq_true] at h1
    exact h1.2 d hd
  have hgrp : ∀ gl, grp = Option.some gl → ∀ g ∈ gl, g.dependency.all dependencyOk = true := by
    intro gl hgl g hg
    subst hgl
    simp only [Bool.and_eq_true, List.all_eq_true] at h2
    exact List.all_eq_true.mpr (h2.2 g hg).2
  cases dep with
  | none =>
    cases grp with
    | none => rfl
    | some gl =>
      simp [serializeDependencies, deserializeDependencies, readOpt1, optE, lookup, asVals,
        mapOpt_map _ _ _ (fun g hg => deserializeDependencyGroup_roundtrip g (hgrp gl rfl g hg))]
  | some dl =>
    cases grp with
    | none =>
      simp [serializeDependencies, deserializeDependencies, readOpt1, optE, lookup, asVals,
        mapOpt_map _ _ _ (fun d hd => deserializeDependency_roundtrip d (hdep dl rfl d hd))]
    | some gl =>
      simp [serializeDependencies, deserializeDependencies, readOpt1, optE, lookup, asVals,
        mapOpt_map _ _ _ (fun d hd => deserializeDependency_roundtrip d (hdep dl rfl d hd)),
        mapOpt_map _ _ _ (fun g hg => deserializeDependencyGroup_roundtrip g (hgrp gl rfl g hg))]

theorem deserializeFrameworkAssembly_roundtrip (fa : FrameworkAssembly) :
    deserializeFrameworkAssembly (serializeFrameworkAssembly fa) = Option.some fa := by
  obtain ⟨an, tf⟩ := fa
  cases tf <;> rfl

theorem deserializeFrameworkAssemblies_roundtrip (f : FrameworkAssemblies) :
    deserializeFrameworkAssemblies (serializeFrameworkAssemblies f) = Option.some f := by
  simp [serializeFrameworkAssemblies, deserializeFrameworkAssemblies, readReq2, lookup2,
    reqE, lookup, asVals,
    mapOpt_map _ _ _ (fun fa _ => deserializeFrameworkAssembly_roundtrip fa)]

theorem deserializeReference_roundtrip (r : Reference) :
    deserializeReference (serializeReference r) = Option.some r := rfl

theorem deserializeReferenceGroup_roundtrip (g : ReferenceGroup) :
    deserializeReferenceGroup (serializeReferenceGroup g) = Option.some g := by
  obtain ⟨tf, rs⟩ := g
  cases tf <;>
    simp [serializeReferenceGroup, deserializeReferenceGroup, readOpt2, readReq1, lookup2,
      reqE, optE, lookup, asText, asVals,
      mapOpt_map _ _ _ (fun r _ => deserializeReference_roundtrip r)]

theorem deserializeReferences_roundtrip (r : References) :
    deserializeReferences (serializeReferences r) = Option.some r := by
  obtain ⟨ref, grp⟩ := r
  cases ref <;> cases grp <;>
    simp [serializeReferences, deserializeReferences, readOpt1, optE, lookup, asVals,
      mapOpt_map _ _ _ (fun x _ => deserializeReference_roundtrip x),
      mapOpt_map _ _ _ (fun g _ => deserializeReferenceGroup_roundtrip g)]

theorem deserializeContentFile_roundtrip (cf : ContentFile)
    (h : optSepListOk ';' cf.exclude = true) :
    deserializeContentFile (serializeContentFile cf) = Option.some cf := by
  obtain ⟨i, exc, ba, co, fl⟩ := cf
  simp only [optSepListOk] at h
  cases exc <;> cases ba <;> cases co <;> cases fl <;>
    simp_all [serializeContentFile, deserializeContentFile, readReq2, readOptSep2,
      readOpt2, lookup2, reqE, optE, lookup, asText, asBool_boolStr,
      parseBuildAction_buildActionStr, decodeSep_encodeSep]

theorem deserializeContentFiles_roundtrip (c : ContentFiles) (h : contentFilesOk c = true) :
    deserializeContentFiles (serializeContentFiles c) = Option.some c := by
  simp only [contentFilesOk, Bool.and_eq_true, List.all_eq_true] at h
  simp [serializeContentFiles, deserializeContentFiles, readReq1, reqE, lookup, asVals,
    mapOpt_map _ _ _ (fun cf hcf => deserializeContentFile_roundtrip cf (h.2 cf hcf))]

theorem deserializeFile_roundtrip (f : File) (h : fileOk f = true) :
    deserializeFile (serializeFile f) = Option.some f := by
  obtain ⟨sv, tv, exc⟩ := f
  simp only [fileOk, optSepListOk] at h
  cases tv <;> cases exc <;>
    simp_all [serializeFile, deserializeFile, readReq2, readOpt2, readOptSep2, lookup2,
      reqE, optE, lookup, asText, decodeSep_encodeSep]

theorem deserializeFiles_roundtrip (fs : Files) (h : filesOk fs = true) :
    deserializeFiles (serializeFiles fs) = Option.some fs := by
  simp only [filesOk, Bool.and_eq_true, List.all_eq_true] at h
  simp [serializeFiles, deserializeFiles, readReq1, reqE, lookup, asVals,
    mapOpt_map _ _ _ (fun f hf => deserializeFile_roundtrip f (h.2 f hf))]

/-! ## Field extraction from the serialized metadata -/

theorem sm_id (m : Metadata) :
    lookup idN (serializeMetadata m) = Option.some (Val.text m.id) := by
  simp [serializeMetadata, List.append_assoc, lookup_reqE_self, lookup_reqE_ne,
    lookup_optE_ne, lookup_optE_self_some, lookup_optE_self_none, lookup_nil,
    lookup_optE_last_some, lookup_optE_last_none, lookup_optE_last_ne]

theorem sm_version (m : Metadata) :
    lookup versionN (serializeMetadata m) = Option.some (Val.text m.version) := by
  simp [serializeMetadata, List.append_assoc, lookup_reqE_self, lookup_reqE_ne,
    lookup_optE_ne, lookup_optE_self_some, lookup_optE_self_none, lookup_nil,
    lookup_optE_last_some, lookup_optE_last_none, lookup_optE_last_ne]

theorem sm_description (m : Metadata) :
    lookup descriptionN (serializeMetadata m) = Option.some (Val.text m.description) := by
  simp [serializeMetadata, List.append_assoc, lookup_reqE_self, lookup_reqE_ne,
    lookup_optE_ne, lookup_optE_self_some, lookup_optE_self_none, lookup_nil,
    lookup_optE_last_some, lookup_optE_last_none, lookup_optE_last_ne]

theorem sm_authors (m : Metadata) :
    lookup authorsN (serializeMetadata m) =
      Option.some (Val.text (encodeSep ',' m.authors)) := by
  simp [serializeMetadata, List.append_assoc, lookup_reqE_self, lookup_reqE_ne,
    lookup_optE_ne, lookup_optE_self_some, lookup_optE_self_none, lookup_nil,
    lookup_optE_last_some, lookup_optE_last_none, lookup_optE_last_ne]

theorem sm_projectUrl (m : Metadata) :
    lookup projectUrlN (serializeMetadata m) = m.project_url.map Val.text := by
  cases h : m.project_url <;>
    simp [serializeMetadata, List.append_assoc, h, lookup_reqE_self, lookup_reqE_ne,
      lookup_optE_ne, lookup_optE_self_some, lookup_optE_self_none, lookup_nil,
      lookup_optE_last_some, lookup_optE_last_none, lookup_optE_last_ne]

theorem sm_license (m : Metadata) :
    lookup licenseN (serializeMetadata m) = m.license.map serializeLicense := by
  cases h : m.license <;>
    simp [serializeMetadata, List.append_assoc, h, lookup_reqE_self, lookup_reqE_ne,
      lookup_optE_ne, lookup_optE_self_some, lookup_optE_self_none, lookup_nil,
      lookup_optE_last_some, lookup_optE_last_none, lookup_optE_last_ne]

theorem sm_icon (m : Metadata) :
    lookup iconN (serializeMetadata m) = m.icon.map Val.text := by
  cases h : m.icon <;>
    simp [serializeMetadata, List.append_assoc, h, lookup_reqE_self, lookup_reqE_ne,
      lookup_optE_ne, lookup_optE_self_some, lookup_optE_self_none, lookup_nil,
      lookup_optE_last_some, lookup_optE_last_none, lookup_optE_last_ne]

theorem sm_readme (m : Metadata) :
    lookup readmeN (serializeMetadata m) = m.readme.map Val.text := by
  cases h : m.readme <;>
    simp [serializeMetadata, List.append_assoc, h, lookup_reqE_self, lookup_reqE_ne,
      lookup_optE_ne, lookup_optE_self_some, lookup_optE_self_none, lookup_nil,
      lookup_optE_last_some, lookup_optE_last_none, lookup_optE_last_ne]

theorem sm_rla (m : Metadata) :
    lookup requireLicenseAcceptanceN (serializeMetadata m) =
      m.require_license_acceptance.map (fun b => Val.text (boolStr b)) := by
  cases h : m.require_license_acceptance <;>
    simp [serializeMetadata, List.append_assoc, h, lookup_reqE_self, lookup_reqE_ne,
      lookup_optE_ne, lookup_optE_self_some, lookup_optE_self_none, lookup_nil,
      lookup_optE_last_some, lookup_optE_last_none, lookup_optE_last_ne]

theorem sm_devDep (m : Metadata) :
    lookup developmentDependencyN (serializeMetadata m) =
      m.development_dependency.map (fun b => Val.text (boolStr b)) := by
  cases h : m.development_dependency <;>
    simp [serializeMetadata, List.append_assoc, h, lookup_reqE_self, lookup_reqE_ne,
      lookup_optE_ne, lookup_optE_self_some, lookup_optE_self_none, lookup_nil,
      lookup_optE_last_some, lookup_optE_last_none, lookup_optE_last_ne]

theorem sm_releaseNotes (m : Metadata) :
    lookup releaseNotesN (serializeMetadata m) = m.release_notes.map Val.text := by
  cases h : m.release_notes <;>
    simp [serializeMetadata, List.append_assoc, h, lookup_reqE_self, lookup_reqE_ne,
      lookup_optE_ne, lookup_optE_self_some, lookup_optE_self_none, lookup_nil,
      lookup_optE_last_some, lookup_optE_last_none, lookup_optE_last_ne]

theorem sm_copyright (m : Metadata) :
    lookup copyrightN (serializeMetadata m) = m.copyright.map Val.text := by
  cases h : m.copyright <;>
    simp [serializeMetadata, List.append_assoc, h, lookup_reqE_self, lookup_reqE_ne,
      lookup_optE_ne, lookup_optE_self_some, lookup_optE_self_none, lookup_nil,
      lookup_optE_last_some, lookup_optE_last_none, lookup_optE_last_ne]

theorem sm_language (m : Metadata) :
    lookup languageN (serializeMetadata m) = m.language.map Val.text := by
  cases h : m.language <;>
    simp [serializeMetadata, List.append_assoc, h, lookup_reqE_self, lookup_reqE_ne,
      lookup_optE_ne, lookup_optE_self_some, lookup_optE_self_none, lookup_nil,
      lookup_optE_last_some, lookup_optE_last_none, lookup_optE_last_ne]

theorem sm_tags (m : Metadata) :
    lookup tagsN (serializeMetadata m) =
      m.tags.map (fun v => Val.text (encodeSep ' ' v)) := by
  cases h : m.tags <;>
    simp [serializeMetadata, List.append_assoc, h, lookup_reqE_self, lookup_reqE_ne,
      lookup_optE_ne, lookup_optE_self_some, lookup_optE_self_none, lookup_nil,
      lookup_optE_last_some, lookup_optE_last_none, lookup_optE_last_ne]

theorem sm_repository (m : Metadata) :
    lookup repositoryN (serializeMetadata m) = m.repository.map serializeRepository := by
  cases h : m.repository <;>
    simp [serializeMetadata, List.append_assoc, h, lookup_reqE_self, lookup_reqE_ne,
      lookup_optE_ne, lookup_optE_self_some, lookup_optE_self_none, lookup_nil,
      lookup_optE_last_some, lookup_optE_last_none, lookup_optE_last_ne]

theorem sm_title (m : Metadata) :
    lookup titleN (serializeMetadata m) = m.title.map Val.text := by
  cases h : m.title <;>
    simp [serializeMetadata, List.append_assoc, h, lookup_reqE_self, lookup_reqE_ne,
      lookup_optE_ne, lookup_optE_self_some, lookup_optE_self_none, lookup_nil,
      lookup_optE_last_some, lookup_optE_last_none, lookup_optE_last_ne]

theorem sm_minClientVersion (m : Metadata) :
    lookup minClientVersionN (serializeMetadata m) = m.min_client_version.map Val.text := by
  cases h : m.min_client_version <;>
    simp [serializeMetadata, List.append_assoc, h, lookup_reqE_self, lookup_reqE_ne,
      lookup_optE_ne, lookup_optE_self_some, lookup_optE_self_none, lookup_nil,
      lookup_optE_last_some, lookup_optE_last_none, lookup_optE_last_ne]

theorem sm_packageTypes (m : Metadata) :
    lookup packageTypesN (serializeMetadata m) = m.package_types.map serializePackageTypes := by
  cases h : m.package_types <;>
    simp [serializeMetadata, List.append_assoc, h, lookup_reqE_self, lookup_reqE_ne,
      lookup_optE_ne, lookup_optE_self_some, lookup_optE_self_none, lookup_nil,
      lookup_optE_last_some, lookup_optE_last_none, lookup_optE_last_ne]

theorem sm_dependencies (m : Metadata) :
    lookup dependenciesN (serializeMetadata m) = m.dependencies.map serializeDependencies := by
  cases h : m.dependencies <;>
    simp [serializeMetadata, List.append_assoc, h, lookup_reqE_self, lookup_reqE_ne,
      lookup_optE_ne, lookup_optE_self_some, lookup_optE_self_none, lookup_nil,
      lookup_optE_last_some, lookup_optE_last_none, lookup_optE_last_ne]

theorem sm_frameworkAssemblies (m : Metadata) :
    lookup frameworkAssembliesN (serializeMetadata m) =
      m.framework_assemblies.map serializeFrameworkAssemblies := by
  cases h : m.framework_assemblies <;>
    simp [serializeMetadata, List.append_assoc, h, lookup_reqE_self, lookup_reqE_ne,
      lookup_optE_ne, lookup_optE_self_some, lookup_optE_self_none, lookup_nil,
      lookup_optE_last_some, lookup_optE_last_none, lookup_optE_last_ne]

theorem sm_references (m : Metadata) :
    lookup referencesN (serializeMetadata m) = m.references.map serializeReferences := by
  cases h : m.references <;>
    simp [serializeMetadata, List.append_assoc, h, lookup_reqE_self, lookup_reqE_ne,
      lookup_optE_ne, lookup_optE_self_some, lookup_optE_self_none, lookup_nil,
      lookup_optE_last_some, lookup_optE_last_none, lookup_optE_last_ne]

theorem sm_contentFiles (m : Metadata) :
    lookup contentFilesN (serializeMetadata m) = m.content_files.map serializeContentFiles := by
  cases h : m.content_files <;>
    simp [serializeMetadata, List.append_assoc, h, lookup_reqE_self, lookup_reqE_ne,
      lookup_optE_ne, lookup_optE_self_some, lookup_optE_self_none, lookup_nil,
      lookup_optE_last_some, lookup_optE_last_none, lookup_optE_last_ne]

/-- No alias name is ever emitted by serialization. -/
theorem sm_alias_none (m : Metadata) (n : String)
    (h1 : ¬ idN = n) (h2 : ¬ versionN = n) (h3 : ¬ descriptionN = n)
    (h4 : ¬ authorsN = n) (h5 : ¬ projectUrlN = n) (h6 : ¬ licenseN = n)
    (h7 : ¬ iconN = n) (h8 : ¬ readmeN = n) (h9 : ¬ requireLicenseAcceptanceN = n)
    (h10 : ¬ developmentDependencyN = n) (h11 : ¬ releaseNotesN = n)
    (h12 : ¬ copyrightN = n) (h13 : ¬ languageN = n) (h14 : ¬ tagsN = n)
    (h15 : ¬ repositoryN = n) (h16 : ¬ titleN = n) (h17 : ¬ minClientVersionN = n)
    (h18 : ¬ packageTypesN = n) (h19 : ¬ dependenciesN = n)
    (h20 : ¬ frameworkAssembliesN = n) (h21 : ¬ referencesN = n)
    (h22 : ¬ contentFilesN = n) :
    lookup n (serializeMetadata m) = Option.none := by
  simp only [serializeMetadata, List.append_assoc]
  rw [lookup_reqE_ne _ _ _ _ h1, lookup_reqE_ne _ _ _ _ h2, lookup_reqE_ne _ _ _ _ h3,
    lookup_reqE_ne _ _ _ _ h4, lookup_optE_ne _ _ _ _ h5, lookup_optE_ne _ _ _ _ h6,
    lookup_optE_ne _ _ _ _ h7, lookup_optE_ne _ _ _ _ h8, lookup_optE_ne _ _ _ _ h9,
    lookup_optE_ne _ _ _ _ h10, lookup_optE_ne _ _ _ _ h11, lookup_optE_ne _ _ _ _ h12,
    lookup_optE_ne _ _ _ _ h13, lookup_optE_ne _ _ _ _ h14, lookup_optE_ne _ _ _ _ h15,
    lookup_optE_ne _ _ _ _ h16, lookup_optE_ne _ _ _ _ h17, lookup_optE_ne _ _ _ _ h18,
    lookup_optE_ne _ _ _ _ h19, lookup_optE_ne _ _ _ _ h20, lookup_optE_ne _ _ _ _ h21]
  exact lookup_optE_last_ne _ _ _ h22

theorem sm_owners (m : Metadata) : lookup ownersA (serializeMetadata m) = Option.none :=
  sm_alias_none m ownersA (by decide) (by decide) (by decide) (by decide) (by decide)
    (by decide) (by decide) (by decide) (by decide) (by decide) (by decide) (by decide)
    (by decide) (by decide) (by decide) (by decide) (by decide) (by decide) (by decide)
    (by decide) (by decide) (by decide)

theorem sm_summary (m : Metadata) : lookup summaryA (serializeMetadata m) = Option.none :=
  sm_alias_none m summaryA (by decide) (by decide) (by decide) (by decide) (by decide)
    (by decide) (by decide) (by decide) (by decide) (by decide) (by decide) (by decide)
    (by decide) (by decide) (by decide) (by decide) (by decide) (by decide) (by decide)
    (by decide) (by decide) (by decide)

theorem sm_projectUrlA (m : Metadata) :
    lookup projectUrlA (serializeMetadata m) = Option.none :=
  sm_alias_none m projectUrlA (by decide) (by decide) (by decide) (by decide) (by decide)
    (by decide) (by decide) (by decide) (by decide) (by decide) (by decide) (by decide)
    (by decide) (by decide) (by decide) (by decide) (by decide) (by decide) (by decide)
    (by decide) (by decide) (by decide)

theorem sm_rlaA (m : Metadata) :
    lookup requireLicenseAcceptanceA (serializeMetadata m) = Option.none :=
  sm_alias_none m requireLicenseAcceptanceA (by decide) (by decide) (by decide) (by decide)
    (by decide) (by decide) (by decide) (by decide) (by decide) (by decide) (by decide)
    (by decide) (by decide) (by decide) (by decide) (by decide) (by decide) (by decide)
    (by decide) (by decide) (by decide) (by decide)

theorem sm_devDepA (m : Metadata) :
    lookup developmentDependencyA (serializeMetadata m) = Option.none :=
  sm_alias_none m developmentDependencyA (by decide) (by decide) (by decide) (by decide)
    (by decide) (by decide) (by decide) (by decide) (by decide) (by decide) (by decide)
    (by decide) (by decide) (by decide) (by decide) (by decide) (by decide) (by decide)
    (by decide) (by decide) (by decide) (by decide)

theorem sm_releaseNotesA (m : Metadata) :
    lookup releaseNotesA (serializeMetadata m) = Option.none :=
  sm_alias_none m releaseNotesA (by decide) (by decide) (by decide) (by decide) (by decide)
    (by decide) (by decide) (by decide) (by decide) (by decide) (by decide) (by decide)
    (by decide) (by decide) (by decide) (by decide) (by decide) (by decide) (by decide)
    (by decide) (by decide) (by decide)

theorem sm_minClientVersionA (m : Metadata) :
    lookup minClientVersionA (serializeMetadata m) = Option.none :=
  sm_alias_none m minClientVersionA (by decide) (by decide) (by decide) (by decide)
    (by decide) (by decide) (by decide) (by decide) (by decide) (by decide) (by decide)
    (by decide) (by decide) (by decide) (by decide) (by decide) (by decide) (by decide)
    (by decide) (by decide) (by decide) (by decide)

theorem sm_packageTypesA (m : Metadata) :
    lookup packageTypesA (serializeMetadata m) = Option.none :=
  sm_alias_none m packageTypesA (by decide) (by decide) (by decide) (by decide) (by decide)
    (by decide) (by decide) (by decide) (by decide) (by decide) (by decide) (by decide)
    (by decide) (by decide) (by decide) (by decide) (by decide) (by decide) (by decide)
    (by decide) (by decide) (by decide)

theorem sm_frameworkAssembliesA (m : Metadata) :
    lookup frameworkAssembliesA (serializeMetadata m) = Option.none :=
  sm_alias_none m frameworkAssembliesA (by decide) (by decide) (by decide) (by decide)
    (by decide) (by decide) (by decide) (by decide) (by decide) (by decide) (by decide)
    (by decide) (by decide) (by decide) (by decide) (by decide) (by decide) (by decide)
    (by decide) (by decide) (by decide) (by decide)

theorem sm_contentFilesA (m : Metadata) :
    lookup contentFilesA (serializeMetadata m) = Option.none :=
  sm_alias_none m contentFilesA (by decide) (by decide) (by decide) (by decide) (by decide)
    (by decide) (by decide) (by decide) (by decide) (by decide) (by decide) (by decide)
    (by decide) (by decide) (by decide) (by decide) (by decide) (by decide) (by decide)
    (by decide) (by decide) (by decide)

/-! ## Generic field-reader lemmas -/

theorem readD1_of_text (n : String) (ch : List (String × Val)) (s : Str)
    (h : lookup n ch = Option.some (Val.text s)) :
    readD1 n asText [] ch = Option.some s := by
  simp [readD1, h, asText]

theorem readD2_of_text (n a : String) (ch : List (String × Val)) (s : Str)
    (h : lookup n ch = Option.some (Val.text s)) (ha : lookup a ch = Option.none) :
    readD2 n a asText [] ch = Option.some s := by
  simp [readD2, lookup2, h, ha, asText]

theorem readD2_of_list (n a : String) (c : Char) (ch : List (String × Val)) (v : List Str)
    (h : lookup n ch = Option.some (Val.text (encodeSep c v)))
    (ha : lookup a ch = Option.none) (hv : sepListOk c v = true) :
    readD2 n a (fun w => (asText w).map (decodeSep c)) [] ch = Option.some v := by
  simp [readD2, lookup2, h, ha, asText, decodeSep_encodeSep c v hv]

theorem readOpt1_gen {α : Type} (n : String) (f : Val → Option α) (g : α → Val)
    (ch : List (String × Val)) (o : Option α) (h : lookup n ch = o.map g)
    (hrt : ∀ x, o = Option.some x → f (g x) = Option.some x) :
    readOpt1 n f ch = Option.some o := by
  cases o with
  | none => simp [readOpt1, h]
  | some x => simp [readOpt1, h, hrt x rfl]

theorem readOpt2_gen {α : Type} (n a : String) (f : Val → Option α) (g : α → Val)
    (ch : List (String × Val)) (o : Option α) (h : lookup n ch = o.map g)
    (ha : lookup a ch = Option.none)
    (hrt : ∀ x, o = Option.some x → f (g x) = Option.some x) :
    readOpt2 n a f ch = Option.some o := by
  cases o with
  | none => simp [readOpt2, lookup2, h, ha]
  | some x => simp [readOpt2, lookup2, h, ha, hrt x rfl]

theorem readOptSep1_gen (n : String) (c : Char) (ch : List (String × Val))
    (o : Option (List Str))
    (h : lookup n ch = o.map (fun v => Val.text (encodeSep c v)))
    (hok : ∀ l, o = Option.some l → sepListOk c l = true) :
    readOptSep1 n c ch = Option.some o := by
  cases o with
  | none => simp [readOptSep1, h]
  | some l => simp [readOptSep1, h, asText, decodeSep_encodeSep c l (hok l rfl)]

/-! ## Metadata round-trip, stage by stage -/

theorem dmStage1_sm (m : Metadata) (hA : sepListOk ',' m.authors = true) :
    dmStage1 (serializeMetadata m) = Option.some
      { id := m.id, version := m.version, description := m.description,
        authors := m.authors, project_url := m.project_url, license := m.license } := by
  simp only [dmStage1,
    readD1_of_text _ _ _ (sm_id m), readD1_of_text _ _ _ (sm_version m),
    readD2_of_text _ _ _ _ (sm_description m) (sm_summary m),
    readD2_of_list _ _ _ _ _ (sm_authors m) (sm_owners m) hA,
    readOpt2_gen _ _ asText _ _ _ (sm_projectUrl m) (sm_projectUrlA m) (fun x _ => rfl),
    readOpt1_gen _ _ _ _ _ (sm_license m) (fun x _ => deserializeLicense_roundtrip x)]
  rfl

theorem dmStage2_sm (m mm : Metadata) :
    dmStage2 (serializeMetadata m) mm = Option.some { mm with
      icon := m.icon, readme := m.readme,
      require_license_acceptance := m.require_license_acceptance,
      development_dependency := m.development_dependency,
      release_notes := m.release_notes } := by
  simp only [dmStage2,
    readOpt1_gen _ asText _ _ _ (sm_icon m) (fun x _ => rfl),
    readOpt1_gen _ asText _ _ _ (sm_readme m) (fun x _ => rfl),
    readOpt2_gen _ _ _ _ _ _ (sm_rla m) (sm_rlaA m) (fun x _ => asBool_boolStr x),
    readOpt2_gen _ _ _ _ _ _ (sm_devDep m) (sm_devDepA m) (fun x _ => asBool_boolStr x),
    readOpt2_gen _ _ asText _ _ _ (sm_releaseNotes m) (sm_releaseNotesA m) (fun x _ => rfl)]
  rfl

theorem dmStage3_sm (m mm : Metadata) (hT : optSepListOk ' ' m.tags = true) :
    dmStage3 (serializeMetadata m) mm = Option.some { mm with
      copyright := m.copyright, language := m.language, tags := m.tags,
      repository := m.repository, title := m.title,
      min_client_version := m.min_client_version } := by
  simp only [dmStage3,
    readOpt1_gen _ asText _ _ _ (sm_copyright m) (fun x _ => rfl),
    readOpt1_gen _ asText _ _ _ (sm_language m) (fun x _ => rfl),
    readOptSep1_gen _ _ _ _ (sm_tags m)
      (fun l hl => by rw [hl] at hT; exact hT),
    readOpt1_gen _ _ _ _ _ (sm_repository m) (fun x _ => deserializeRepository_roundtrip x),
    readOpt1_gen _ asText _ _ _ (sm_title m) (fun x _ => rfl),
    readOpt2_gen _ _ asText _ _ _ (sm_minClientVersion m) (sm_minClientVersionA m) (fun x _ => rfl)]
  rfl

theorem dmStage4_sm (m mm : Metadata)
    (hPT : ∀ p, m.package_types = Option.some p → packageTypesOk p = true)
    (hD : ∀ d, m.dependencies = Option.some d → dependenciesOk d = true)
    (hCF : ∀ c, m.content_files = Option.some c → contentFilesOk c = true) :
    dmStage4 (serializeMetadata m) mm = Option.some { mm with
      package_types := m.package_types, dependencies := m.dependencies,
      framework_assemblies := m.framework_assemblies, references := m.references,
      content_files := m.content_files } := by
  simp only [dmStage4,
    readOpt2_gen _ _ _ _ _ _ (sm_packageTypes m) (sm_packageTypesA m)
      (fun x hx => deserializePackageTypes_roundtrip x (hPT x hx)),
    readOpt1_gen _ _ _ _ _ (sm_dependencies m)
      (fun x hx => deserializeDependencies_roundtrip x (hD x hx)),
    readOpt2_gen _ _ _ _ _ _ (sm_frameworkAssemblies m) (sm_frameworkAssembliesA m)
      (fun x _ => deserializeFrameworkAssemblies_roundtrip x),
    readOpt1_gen _ _ _ _ _ (sm_references m)
      (fun x _ => deserializeReferences_roundtrip x),
    readOpt2_gen _ _ _ _ _ _ (sm_contentFiles m) (sm_contentFilesA m)
      (fun x hx => deserializeContentFiles_roundtrip x (hCF x hx))]
  rfl

theorem deserializeMetadata_sm (m : Metadata) (h : metadataOk m = true) :
    deserializeMetadata (serializeMetadata m) = Option.some m := by
  simp only [metadataOk, Bool.and_eq_true] at h
  obtain ⟨⟨⟨⟨⟨⟨hA, hT⟩, hPT⟩, hD⟩, hFA⟩, hR⟩, hCF⟩ := h
  simp only [deserializeMetadata, dmStage1_sm m hA, dmStage2_sm m, dmStage3_sm m _ hT,
    dmStage4_sm m _ (fun p hp => by rw [hp] at hPT; exact hPT)
      (fun d hd => by rw [hd] at hD; exact hD)
      (fun c hc => by rw [hc] at hCF; exact hCF)]
  rfl

/-- The round-trip at the package level, used by several claims below. -/
theorem deserializePackage_roundtrip_aux (p : Package) (h : validPackage p = true) :
    deserializePackage (serializePackage p) = Option.some p := by
  obtain ⟨nsv, m, fs⟩ := p
  simp only [validPackage, Bool.and_eq_true] at h
  have hM : metadataOk m = true := h.1
  have hFs : ∀ l, fs = Option.some l → filesOk l = true := by
    intro l hl
    rw [hl] at h
    exact h.2
  cases nsv <;> cases fs <;>
    simp_all [serializePackage, deserializePackage, readOpt2, readD1, readOpt1,
      lookup2, optE, reqE, lookup, asText, List.append_assoc,
      deserializeMetadata_sm m hM, deserializeFiles_roundtrip]

/-! ## The `authors`/`owners` alias asymmetry

`renameAuthorsOwners` turns a serialized package into the same document with
the `authors` element renamed to `owners`; the alias on the `authors` field
makes deserialization accept it identically. -/

def renameList (ch : List (String × Val)) : List (String × Val) :=
  ch.map (fun e => if e.1 = authorsN then (ownersA, e.2) else e)

def renameMetaVal : Val → Val
  | .node mch => .node (renameList mch)
  | v => v

def renameAuthorsOwners : Val → Val
  | .node ch => .node (ch.map (fun e => if e.1 = metadataN then (e.1, renameMetaVal e.2) else e))
  | v => v

theorem lookup_renameList_other (n : String) (ch : List (String × Val))
    (h1 : ¬ n = authorsN) (h2 : ¬ n = ownersA) :
    lookup n (renameList ch) = lookup n ch := by
  induction ch with
  | nil => rfl
  | cons e rest ih =>
    simp only [renameList, List.map_cons] at ih ⊢
    by_cases hk : e.1 = authorsN
    · rw [if_pos hk]
      simp only [lookup]
      rw [if_neg (fun hh => h2 hh.symm), if_neg (fun hh => h1 (hh.symm.trans hk))]
      exact ih
    · rw [if_neg hk]
      simp only [lookup]
      by_cases hkn : e.1 = n
      · rw [if_pos hkn, if_pos hkn]
      · rw [if_neg hkn, if_neg hkn]
        exact ih

theorem lookup_renameList_authors (ch : List (String × Val)) :
    lookup authorsN (renameList ch) = Option.none := by
  induction ch with
  | nil => rfl
  | cons e rest ih =>
    simp only [renameList, List.map_cons] at ih ⊢
    by_cases hk : e.1 = authorsN
    · rw [if_pos hk]
      simp only [lookup]
      rw [if_neg (show ¬ ownersA = authorsN by decide)]
      exact ih
    · rw [if_neg hk]
      simp only [lookup]
      rw [if_neg hk]
      exact ih

theorem lookup_renameList_owners (ch : List (String × Val))
    (h : lookup ownersA ch = Option.none) :
    lookup ownersA (renameList ch) = lookup authorsN ch := by
  induction ch with
  | nil => rfl
  | cons e rest ih =>
    simp only [renameList, List.map_cons] at ih ⊢
    simp only [lookup] at h
    by_cases hk : e.1 = authorsN
    · rw [if_pos hk]
      simp only [lookup]
      simp [hk]
    · have hko : ¬ e.1 = ownersA := by
        intro hko
        rw [if_pos hko] at h
        exact Option.noConfusion h
      rw [if_neg hk]
      simp only [lookup]
      rw [if_neg hko, if_neg hk]
      exact ih (by rwa [if_neg hko] at h)

theorem lookup2_renameList (n a : String) (ch : List (String × Val))
    (hn : ¬ n = authorsN) (hn2 : ¬ n = ownersA) (ha : ¬ a = authorsN) (ha2 : ¬ a = ownersA) :
    lookup2 n a (renameList ch) = lookup2 n a ch := by
  simp only [lookup2, lookup_renameList_other n ch hn hn2, lookup_renameList_other a ch ha ha2]

theorem lookup2_renameList_authors (ch : List (String × Val))
    (h : lookup ownersA ch = Option.none) :
    lookup2 authorsN ownersA (renameList ch) = lookup2 authorsN ownersA ch := by
  simp only [lookup2, lookup_renameList_authors ch, lookup_renameList_owners ch h, h]
  cases lookup authorsN ch <;> rfl

/-- Deserialization of the metadata element depends on its content only
through the field lookups, reading `authors` and `owners` jointly. -/
theorem deserializeMetadata_congr (ch ch2 : List (String × Val))
    (h1 : ∀ n : String, ¬ n = authorsN → ¬ n = ownersA → lookup n ch2 = lookup n ch)
    (h2 : lookup2 authorsN ownersA ch2 = lookup2 authorsN ownersA ch) :
    deserializeMetadata ch2 = deserializeMetadata ch := by
  have l2 : ∀ n a : String, ¬ n = authorsN → ¬ n = ownersA → ¬ a = authorsN →
      ¬ a = ownersA → lookup2 n a ch2 = lookup2 n a ch := by
    intro n a hn hn2 ha ha2
    simp only [lookup2, h1 n hn hn2, h1 a ha ha2]
  simp only [deserializeMetadata, dmStage1, dmStage2, dmStage3, dmStage4,
    readD1, readD2, readOpt1, readOpt2, readOptSep1,
    h1 idN (by decide) (by decide), h1 versionN (by decide) (by decide),
    h1 licenseN (by decide) (by decide), h1 iconN (by decide) (by decide),
    h1 readmeN (by decide) (by decide), h1 copyrightN (by decide) (by decide),
    h1 languageN (by decide) (by decide), h1 tagsN (by decide) (by decide),
    h1 repositoryN (by decide) (by decide), h1 titleN (by decide) (by decide),
    h1 dependenciesN (by decide) (by decide), h1 referencesN (by decide) (by decide),
    l2 descriptionN summaryA (by decide) (by decide) (by decide) (by decide),
    l2 projectUrlN projectUrlA (by decide) (by decide) (by decide) (by decide),
    l2 requireLicenseAcceptanceN requireLicenseAcceptanceA (by decide) (by decide)
      (by decide) (by decide),
    l2 developmentDependencyN developmentDependencyA (by decide) (by decide)
      (by decide) (by decide),
    l2 releaseNotesN releaseNotesA (by decide) (by decide) (by decide) (by decide),
    l2 minClientVersionN minClientVersionA (by decide) (by decide) (by decide) (by decide),
    l2 packageTypesN packageTypesA (by decide) (by decide) (by decide) (by decide),
    l2 frameworkAssembliesN frameworkAssembliesA (by decide) (by decide)
      (by decide) (by decide),
    l2 contentFilesN contentFilesA (by decide) (by decide) (by decide) (by decide),
    h2]

theorem lookup_mapVal_ne (g : Val → Val) (m0 n : String) (ch : List (String × Val))
    (h : ¬ n = m0) :
    lookup n (ch.map (fun e => if e.1 = m0 then (e.1, g e.2) else e)) = lookup n ch := by
  induction ch with
  | nil => rfl
  | cons e rest ih =>
    simp only [List.map_cons]
    by_cases hk : e.1 = m0
    · rw [if_pos hk]
      simp only [lookup]
      rw [if_neg (fun hh => h (hh.symm.trans hk)), if_neg (fun hh => h (hh.symm.trans hk))]
      exact ih
    · rw [if_neg hk]
      simp only [lookup]
      by_cases hkn : e.1 = n
      · rw [if_pos hkn, if_pos hkn]
      · rw [if_neg hkn, if_neg hkn]
        exact ih

theorem lookup_mapVal_eq (g : Val → Val) (m0 : String) (ch : List (String × Val)) :
    lookup m0 (ch.map (fun e => if e.1 = m0 then (e.1, g e.2) else e)) =
      (lookup m0 ch).map g := by
  induction ch with
  | nil => rfl
  | cons e rest ih =>
    simp only [List.map_cons]
    by_cases hk : e.1 = m0
    · rw [if_pos hk]
      simp only [lookup]
      rw [if_pos hk, if_pos hk]
      rfl
    · rw [if_neg hk]
      simp only [lookup]
      rw [if_neg hk, if_neg hk]
      exact ih

/-! ## Claims C1 and C7 -/

/-- C1: for every valid `PackageSpec` value, deserializing the serialization
yields the value back; the sole asymmetry is the `authors`/`owners` alias —
serialization never emits an `owners` element, and the same document with
`authors` renamed to `owners` deserializes to the identical value (both names
feed the `authors` field). -/
theorem c1_roundtrip_with_owners_alias (p : Package) (h : validPackage p = true) :
    deserializePackage (serializePackage p) = Option.some p ∧
    lookup ownersA (serializeMetadata p.metadata) = Option.none ∧
    deserializePackage (renameAuthorsOwners (serializePackage p)) = Option.some p := by
  refine ⟨deserializePackage_roundtrip_aux p h, sm_owners p.metadata, ?_⟩
  have hmeta : deserializeMetadata (renameList (serializeMetadata p.metadata)) =
      deserializeMetadata (serializeMetadata p.metadata) :=
    deserializeMetadata_congr _ _
      (fun n hn hn2 => lookup_renameList_other n _ hn hn2)
      (lookup2_renameList_authors _ (sm_owners p.metadata))
  have hrw : deserializePackage (renameAuthorsOwners (serializePackage p)) =
      deserializePackage (serializePackage p) := by
    obtain ⟨nsv, m, fs⟩ := p
    cases nsv <;> cases fs <;>
      simp_all [serializePackage, renameAuthorsOwners, renameMetaVal, optE, reqE,
        deserializePackage, readOpt2, readOpt1, readD1, lookup2, lookup,
        List.append_assoc]
  rw [hrw]
  exact deserializePackage_roundtrip_aux p h

def c1pkg : Package :=
  { metadata := { authors := [("one".toList), ("two".toList)] } }

theorem c1_roundtrip_with_owners_alias_witness :
    validPackage c1pkg = true ∧
    (deserializePackage (serializePackage c1pkg) = Option.some c1pkg ∧
     lookup ownersA (serializeMetadata c1pkg.metadata) = Option.none ∧
     deserializePackage (renameAuthorsOwners (serializePackage c1pkg)) = Option.some c1pkg) :=
  ⟨by decide, c1_roundtrip_with_owners_alias c1pkg (by decide)⟩

/-- C7: `tags = Some []` serializes to an empty `tags` element while
`tags = None` produces no `tags` entry at all, and in both cases the whole
document still deserializes back to the original value. -/
theorem c7_tags_empty_vs_absent (p : Package) (h : validPackage p = true) :
    (p.metadata.tags = Option.some [] →
      lookup tagsN (serializeMetadata p.metadata) = Option.some (Val.text []) ∧
      deserializePackage (serializePackage p) = Option.some p) ∧
    (p.metadata.tags = Option.none →
      lookup tagsN (serializeMetadata p.metadata) = Option.none ∧
      deserializePackage (serializePackage p) = Option.some p) := by
  constructor
  · intro ht
    refine ⟨?_, deserializePackage_roundtrip_aux p h⟩
    rw [sm_tags, ht]
    rfl
  · intro ht
    refine ⟨?_, deserializePackage_roundtrip_aux p h⟩
    rw [sm_tags, ht]
    rfl

def c7pkg : Package := { metadata := { tags := Option.some [] } }

theorem c7_tags_empty_vs_absent_witness :
    validPackage c7pkg = true ∧ c7pkg.metadata.tags = Option.some [] ∧
    (lookup tagsN (serializeMetadata c7pkg.metadata) = Option.some (Val.text []) ∧
     deserializePackage (serializePackage c7pkg) = Option.some c7pkg) ∧
    validPackage {} = true ∧ ({} : Package).metadata.tags = Option.none ∧
    (lookup tagsN (serializeMetadata ({} : Package).metadata) = Option.none ∧
     deserializePackage (serializePackage {}) = Option.some {}) :=
  ⟨by decide, rfl, (c7_tags_empty_vs_absent c7pkg (by decide)).1 rfl,
   by decide, rfl, (c7_tags_empty_vs_absent {} (by decide)).2 rfl⟩

/-! ## Inversion and frame lemmas for the resolution pipeline -/

theorem Res.bind_eq_ok {α β : Type} (x : Res α) (f : α → Res β) (b : β) :
    Res.bind x f = Res.ok b ↔ ∃ a, x = Res.ok a ∧ f a = Res.ok b := by
  cases x <;> simp [Res.bind]

theorem Res.ofOption_eq_ok {α : Type} (o : Option α) (a : α) :
    Res.ofOption o = Res.ok a ↔ o = Option.some a := by
  cases o <;> simp [Res.ofOption]

theorem applyId_metadata (pn : Str) (pkg : Package) :
    (applyId pn pkg).metadata =
      { pkg.metadata with id := if pkg.metadata.id = [] then pn else pkg.metadata.id } := by
  unfold applyId
  split <;> simp_all

theorem applyVersion_metadata (env : Env) (pkg : Package) :
    (applyVersion env pkg).metadata =
      { pkg.metadata with version :=
          if pkg.metadata.version = [] then env.version.getD [] else pkg.metadata.version } := by
  unfold applyVersion
  split <;> simp_all

theorem applyDescription_metadata (env : Env) (pkg : Package) :
    (applyDescription env pkg).metadata =
      { pkg.metadata with description :=
          if pkg.metadata.description = [] then env.description.getD []
          else pkg.metadata.description } := by
  unfold applyDescription
  split <;> simp_all

theorem applyAuthors_metadata (env : Env) (pkg : Package) :
    (applyAuthors env pkg).metadata =
      { pkg.metadata with authors :=
          if pkg.metadata.authors = [] then splitColonTrim (env.authors.getD [])
          else pkg.metadata.authors } := by
  unfold applyAuthors
  split <;> simp_all

theorem applyProjectUrl_metadata (env : Env) (pkg : Package) :
    (applyProjectUrl env pkg).metadata =
      { pkg.metadata with project_url :=
          match pkg.metadata.project_url with
          | Option.none => nonEmptyEnv env.homepage
          | Option.some u => Option.some u } := by
  unfold applyProjectUrl
  cases h : pkg.metadata.project_url with
  | none => simp_all
  | some u =>
    simp only [h, Option.isNone_some, Bool.false_eq_true, if_false]
    rw [← h]

theorem applyLicenseExpression_metadata (env : Env) (pkg : Package) :
    (applyLicenseExpression env pkg).metadata =
      { pkg.metadata with license :=
          match pkg.metadata.license with
          | Option.none => (nonEmptyEnv env.license).map License.expression
          | Option.some l => Option.some l } := by
  unfold applyLicenseExpression
  cases h : pkg.metadata.license with
  | none => simp_all
  | some l =>
    simp only [h, Option.isNone_some, Bool.false_eq_true, if_false]
    rw [← h]

theorem applyRepository_metadata (env : Env) (pkg : Package) :
    (applyRepository env pkg).metadata =
      { pkg.metadata with repository :=
          match pkg.metadata.repository with
          | Option.none => (nonEmptyEnv env.repository).map (fun u => { url := Option.some u })
          | Option.some r => Option.some r } := by
  unfold applyRepository
  cases h : pkg.metadata.repository with
  | none => simp_all
  | some r =>
    simp only [h, Option.isNone_some, Bool.false_eq_true, if_false]
    rw [← h]

/-- The license-file stage only (possibly) writes the `license` field of the
metadata, and never when a license is already present. -/
theorem applyLicenseFile_ok (env : Env) (canon : Canon) (outDir : Str) (pkg : Package)
    (files : List File) (pf : Package × List File)
    (h : applyLicenseFile env canon outDir pkg files = Res.ok pf) :
    ∃ licO, pf.1 = { pkg with metadata := { pkg.metadata with license := licO } } ∧
      (pkg.metadata.license.isSome = true → licO = pkg.metadata.license) := by
  unfold applyLicenseFile at h
  by_cases hl : pkg.metadata.license.isNone = true
  · rw [if_pos hl] at h
    have hnone : pkg.metadata.license = Option.none := Option.isNone_iff_eq_none.mp hl
    cases hf : env.licenseFile with
    | none =>
      simp only [hf] at h
      refine ⟨pkg.metadata.license, ?_, fun _ => rfl⟩
      simp only [Res.ok.injEq] at h
      subst h
      rfl
    | some path =>
      simp only [hf] at h
      by_cases hp : path = []
      · rw [if_pos hp] at h
        refine ⟨pkg.metadata.license, ?_, fun _ => rfl⟩
        simp only [Res.ok.injEq] at h
        subst h
        rfl
      · rw [if_neg hp, Res.bind_eq_ok] at h
        obtain ⟨lp, _, h⟩ := h
        cases hfn : fileName lp with
        | none =>
          simp only [hfn] at h
          exact absurd h (by simp)
        | some b =>
          simp only [hfn, Res.ok.injEq] at h
          refine ⟨Option.some (License.file b), ?_, ?_⟩
          · subst h
            rfl
          · intro hs
            rw [hnone] at hs
            exact absurd hs (by simp)
  · rw [if_neg hl] at h
    refine ⟨pkg.metadata.license, ?_, fun _ => rfl⟩
    simp only [Res.ok.injEq] at h
    subst h
    rfl

theorem applyTags_ok (wsmRes : Res WorkspaceManifest) (mpackage : Option ManifestPackage)
    (pkg pkg2 : Package) (h : applyTags wsmRes mpackage pkg = Res.ok pkg2) :
    ∃ tagsO, pkg2 = { pkg with metadata := { pkg.metadata with tags := tagsO } } ∧
      (pkg.metadata.tags.isSome = true → tagsO = pkg.metadata.tags) := by
  unfold applyTags at h
  by_cases hl : pkg.metadata.tags.isNone = true
  · rw [if_pos hl, Res.bind_eq_ok] at h
    have hnone : pkg.metadata.tags = Option.none := Option.isNone_iff_eq_none.mp hl
    obtain ⟨t, _, h⟩ := h
    simp only [Res.ok.injEq] at h
    refine ⟨t, ?_, ?_⟩
    · subst h
      rfl
    · intro hs
      rw [hnone] at hs
      exact absurd hs (by simp)
  · rw [if_neg hl] at h
    refine ⟨pkg.metadata.tags, ?_, fun _ => rfl⟩
    simp only [Res.ok.injEq] at h
    subst h
    rfl

theorem applyReadme_ok (env : Env) (canon : Canon) (outDir : Str) (pkg : Package)
    (files : List File) (pf : Package × List File)
    (h : applyReadme env canon outDir pkg files = Res.ok pf) :
    ∃ readmeO, pf.1 = { pkg with metadata := { pkg.metadata with readme := readmeO } } ∧
      (pkg.metadata.readme.isSome = true → readmeO = pkg.metadata.readme) := by
  unfold applyReadme at h
  by_cases hl : pkg.metadata.readme.isNone = true
  · rw [if_pos hl] at h
    have hnone : pkg.metadata.readme = Option.none := Option.isNone_iff_eq_none.mp hl
    cases hf : env.readme with
    | none =>
      simp only [hf] at h
      refine ⟨pkg.metadata.readme, ?_, fun _ => rfl⟩
      simp only [Res.ok.injEq] at h
      subst h
      rfl
    | some path =>
      simp only [hf] at h
      by_cases hp : path = []
      · rw [if_pos hp] at h
        refine ⟨pkg.metadata.readme, ?_, fun _ => rfl⟩
        simp only [Res.ok.injEq] at h
        subst h
        rfl
      · rw [if_neg hp, Res.bind_eq_ok] at h
        obtain ⟨rp, _, h⟩ := h
        cases hfn : fileName rp with
        | none =>
          simp only [hfn] at h
          exact absurd h (by simp)
        | some b =>
          simp only [hfn, Res.ok.injEq] at h
          refine ⟨Option.some b, ?_, ?_⟩
          · subst h
            rfl
          · intro hs
            rw [hnone] at hs
            exact absurd hs (by simp)
  · rw [if_neg hl] at h
    refine ⟨pkg.metadata.readme, ?_, fun _ => rfl⟩
    simp only [Res.ok.injEq] at h
    subst h
    rfl

/-- The metadata produced by the six purely environment-driven stages. -/
theorem pureStages_metadata (env : Env) (pn : Str) (pkg : Package) :
    (applyLicenseExpression env (applyProjectUrl env (applyAuthors env
      (applyDescription env (applyVersion env (applyId pn pkg)))))).metadata =
    { pkg.metadata with
      id := if pkg.metadata.id = [] then pn else pkg.metadata.id,
      version := if pkg.metadata.version = [] then env.version.getD []
        else pkg.metadata.version,
      description := if pkg.metadata.description = [] then env.description.getD []
        else pkg.metadata.description,
      authors := if pkg.metadata.authors = [] then splitColonTrim (env.authors.getD [])
        else pkg.metadata.authors,
      project_url := match pkg.metadata.project_url with
        | Option.none => nonEmptyEnv env.homepage
        | Option.some u => Option.some u,
      license := match pkg.metadata.license with
        | Option.none => (nonEmptyEnv env.license).map License.expression
        | Option.some l => Option.some l } := by
  simp only [applyLicenseExpression_metadata, applyProjectUrl_metadata,
    applyAuthors_metadata, applyDescription_metadata, applyVersion_metadata,
    applyId_metadata]

/-- Full characterization of the metadata `loadCore` resolves: every
environment-driven field keeps its explicit value and otherwise receives the
derived default; the oracle-driven fields (`license`, `tags`, `readme`) are
existentially characterized together with the fact that an explicit value is
kept. -/
theorem loadCore_ok_metadata (plat : Platform) (env : Env) (canon : Canon)
    (artRes : Res Str) (wsmRes : Res WorkspaceManifest)
    (mpackage : Option ManifestPackage) (mbinary : Option (List ManifestBinary))
    (outDir : Str) (s : LoadState)
    (h : loadCore plat env canon artRes wsmRes mpackage mbinary outDir = Res.ok s) :
    ∃ pn licO tagsO readmeO,
      env.pkgName = Option.some pn ∧
      ((nuspecPackage mpackage).metadata.license.isSome = true →
        licO = (nuspecPackage mpackage).metadata.license) ∧
      ((nuspecPackage mpackage).metadata.tags.isSome = true →
        tagsO = (nuspecPackage mpackage).metadata.tags) ∧
      ((nuspecPackage mpackage).metadata.readme.isSome = true →
        readmeO = (nuspecPackage mpackage).metadata.readme) ∧
      s.pkg.metadata = { (nuspecPackage mpackage).metadata with
        id := if (nuspecPackage mpackage).metadata.id = [] then pn
          else (nuspecPackage mpackage).metadata.id,
        version := if (nuspecPackage mpackage).metadata.version = [] then env.version.getD []
          else (nuspecPackage mpackage).metadata.version,
        description := if (nuspecPackage mpackage).metadata.description = []
          then env.description.getD [] else (nuspecPackage mpackage).metadata.description,
        authors := if (nuspecPackage mpackage).metadata.authors = []
          then splitColonTrim (env.authors.getD [])
          else (nuspecPackage mpackage).metadata.authors,
        project_url := match (nuspecPackage mpackage).metadata.project_url with
          | Option.none => nonEmptyEnv env.homepage
          | Option.some u => Option.some u,
        license := licO,
        tags := tagsO,
        repository := match (nuspecPackage mpackage).metadata.repository with
          | Option.none => (nonEmptyEnv env.repository).map (fun u => { url := Option.some u })
          | Option.some r => Option.some r,
        readme := readmeO } := by
  unfold loadCore at h
  rw [Res.bind_eq_ok] at h
  obtain ⟨art, hart, h⟩ := h
  rw [Res.bind_eq_ok] at h
  obtain ⟨files1, hfiles, h⟩ := h
  rw [Res.bind_eq_ok] at h
  obtain ⟨pn, hpn, h⟩ := h
  rw [Res.ofOption_eq_ok] at hpn
  rw [Res.bind_eq_ok] at h
  obtain ⟨pf, hlic, h⟩ := h
  rw [Res.bind_eq_ok] at h
  obtain ⟨pkg2, htags, h⟩ := h
  rw [Res.bind_eq_ok] at h
  obtain ⟨pf2, hreadme, h⟩ := h
  rw [Res.bind_eq_ok] at h
  obtain ⟨files2, hbin, h⟩ := h
  simp only [Res.ok.injEq] at h
  subst h
  obtain ⟨licO, hpf1, hlicp⟩ := applyLicenseFile_ok _ _ _ _ _ _ hlic
  obtain ⟨tagsO, hpkg2, htagsp⟩ := applyTags_ok _ _ _ _ htags
  obtain ⟨readmeO, hpf21, hreadmep⟩ := applyReadme_ok _ _ _ _ _ _ hreadme
  have hpure := pureStages_metadata env pn (nuspecPackage mpackage)
  refine ⟨pn, licO, tagsO, readmeO, hpn, ?_, ?_, ?_, ?_⟩
  · intro hs
    cases hm : (nuspecPackage mpackage).metadata.license with
    | none => rw [hm] at hs; exact absurd hs (by simp)
    | some l =>
      have h1 : (applyLicenseExpression env (applyProjectUrl env (applyAuthors env
          (applyDescription env (applyVersion env (applyId pn
          (nuspecPackage mpackage))))))).metadata.license = Option.some l := by
        rw [hpure]
        simp [hm]
      simp only [hlicp (by rw [h1]; rfl), h1, hm]
  · intro hs
    have h1 : pf.1.metadata.tags = (nuspecPackage mpackage).metadata.tags := by
      rw [hpf1]
      simp [hpure]
    simp only [htagsp (by rw [h1]; exact hs), h1]
  · intro hs
    have h1 : (applyRepository env pkg2).metadata.readme =
        (nuspecPackage mpackage).metadata.readme := by
      rw [applyRepository_metadata, hpkg2, hpf1]
      simp [hpure]
    simp only [hreadmep (by rw [h1]; exact hs), h1]
  · show pf2.1.metadata = _
    rw [hpf21, applyRepository_metadata, hpkg2, hpf1]
    simp only [hpure]

theorem loadPackageConfig_ok (plat : Platform) (env : Env) (canon : Canon)
    (artRes : Res Str) (wsmRes : Res WorkspaceManifest) (manifest : Manifest)
    (outDir : Str) (pkg : Package) (ws : List String)
    (h : loadPackageConfig plat env canon artRes wsmRes manifest outDir = Res.ok (pkg, ws)) :
    ∃ s fw, loadCore plat env canon artRes wsmRes manifest.package manifest.binary outDir =
        Res.ok s ∧
      processLib plat canon outDir s.art s.pkgName manifest.lib s.files = Res.ok fw ∧
      pkg = { s.pkg with
        files := if fw.1 = [] then Option.none else Option.some { file := fw.1 } } ∧
      ws = fw.2 := by
  unfold loadPackageConfig at h
  rw [Res.bind_eq_ok] at h
  obtain ⟨s, hs, h⟩ := h
  rw [Res.bind_eq_ok] at h
  obtain ⟨fw, hfw, h⟩ := h
  simp only [Res.ok.injEq, Prod.mk.injEq] at h
  exact ⟨s, fw, hs, hfw, h.1.symm, h.2.symm⟩

/-! ## Claims C2 and C10 -/

/-- C2: for every metadata field of the user-declared spec (id, version,
description, authors, projectUrl, license, tags, repository, readme), a field
that is already explicitly set (non-empty / `Some`) before resolution holds
the same value after `load_package_config`: no environment-derived default
overwrites it. -/
theorem c2_explicit_fields_preserved (plat : Platform) (env : Env) (canon : Canon)
    (artRes : Res Str) (wsmRes : Res WorkspaceManifest) (manifest : Manifest)
    (outDir : Str) (pkg : Package) (ws : List String)
    (h : loadPackageConfig plat env canon artRes wsmRes manifest outDir = Res.ok (pkg, ws)) :
    ((initialPackage manifest).metadata.id ≠ [] →
      pkg.metadata.id = (initialPackage manifest).metadata.id) ∧
    ((initialPackage manifest).metadata.version ≠ [] →
      pkg.metadata.version = (initialPackage manifest).metadata.version) ∧
    ((initialPackage manifest).metadata.description ≠ [] →
      pkg.metadata.description = (initialPackage manifest).metadata.description) ∧
    ((initialPackage manifest).metadata.authors ≠ [] →
      pkg.metadata.authors = (initialPackage manifest).metadata.authors) ∧
    ((initialPackage manifest).metadata.project_url.isSome = true →
      pkg.metadata.project_url = (initialPackage manifest).metadata.project_url) ∧
    ((initialPackage manifest).metadata.license.isSome = true →
      pkg.metadata.license = (initialPackage manifest).metadata.license) ∧
    ((initialPackage manifest).metadata.tags.isSome = true →
      pkg.metadata.tags = (initialPackage manifest).metadata.tags) ∧
    ((initialPackage manifest).metadata.repository.isSome = true →
      pkg.metadata.repository = (initialPackage manifest).metadata.repository) ∧
    ((initialPackage manifest).metadata.readme.isSome = true →
      pkg.metadata.readme = (initialPackage manifest).metadata.readme) := by
  obtain ⟨s, fw, hcore, hlib, hpkg, hws⟩ := loadPackageConfig_ok _ _ _ _ _ _ _ _ _ h
  obtain ⟨pn, licO, tagsO, readmeO, hpn, hlicp, htagsp, hreadmep, hmeta⟩ :=
    loadCore_ok_metadata _ _ _ _ _ _ _ _ _ hcore
  have hm : pkg.metadata = s.pkg.metadata := by rw [hpkg]
  rw [hm, hmeta]
  refine ⟨?_, ?_, ?_, ?_, ?_, ?_, ?_, ?_, ?_⟩
  · intro hne
    simp only [initialPackage] at hne ⊢
    simp [hne]
  · intro hne
    simp only [initialPackage] at hne ⊢
    simp [hne]
  · intro hne
    simp only [initialPackage] at hne ⊢
    simp [hne]
  · intro hne
    simp only [initialPackage] at hne ⊢
    simp [hne]
  · intro hs
    simp only [initialPackage] at hs ⊢
    cases hu : (nuspecPackage manifest.package).metadata.project_url with
    | none => rw [hu] at hs; exact absurd hs (by simp)
    | some u => simp [hu]
  · intro hs
    simp only [initialPackage] at hs ⊢
    simp [hlicp hs]
  · intro hs
    simp only [initialPackage] at hs ⊢
    simp [htagsp hs]
  · intro hs
    simp only [initialPackage] at hs ⊢
    cases hu : (nuspecPackage manifest.package).metadata.repository with
    | none => rw [hu] at hs; exact absurd hs (by simp)
    | some r => simp [hu]
  · intro hs
    simp only [initialPackage] at hs ⊢
    simp [hreadmep hs]

def c2pkg0 : Package :=
  { metadata :=
    { id := ("i".toList), version := ("v".toList), description := ("d".toList),
      authors := [("a".toList)], project_url := Option.some ("u".toList),
      license := Option.some (License.expression ("MIT".toList)),
      tags := Option.some [("t".toList)],
      repository := Option.some { url := Option.some ("r".toList) },
      readme := Option.some ("rm".toList) } }

def c2manifest : Manifest :=
  { package := Option.some
      { keywords := Option.none,
        metadata := Option.some { nuspec := Option.some { package := Option.some c2pkg0 } } } }

def c2env : Env := { pkgName := Option.some ("p".toList) }

theorem c2_explicit_fields_preserved_witness :
    ((initialPackage c2manifest).metadata.id ≠ [] ∧
      c2pkg0.metadata.id = (initialPackage c2manifest).metadata.id) ∧
    ((initialPackage c2manifest).metadata.license.isSome = true ∧
      c2pkg0.metadata.license = (initialPackage c2manifest).metadata.license) ∧
    ((initialPackage c2manifest).metadata.readme.isSome = true ∧
      c2pkg0.metadata.readme = (initialPackage c2manifest).metadata.readme) := by
  have happ := c2_explicit_fields_preserved Platform.otherUnix c2env (fun _ => Option.none)
    (Res.ok []) (Res.ok {}) c2manifest [] c2pkg0 [] (by decide)
  exact ⟨⟨by decide, happ.1 (by decide)⟩,
    ⟨by decide, happ.2.2.2.2.2.1 (by decide)⟩,
    ⟨by decide, happ.2.2.2.2.2.2.2.2 (by decide)⟩⟩

/-- C10: when the declared authors list is empty and the environment author
variable is absent or empty, resolution produces the one-element list holding
the empty string (splitting `""` at `':'`), never the empty list; in general
the resolved authors list is never empty. -/
theorem c10_authors_never_empty (plat : Platform) (env : Env) (canon : Canon)
    (artRes : Res Str) (wsmRes : Res WorkspaceManifest) (manifest : Manifest)
    (outDir : Str) (pkg : Package) (ws : List String)
    (h : loadPackageConfig plat env canon artRes wsmRes manifest outDir = Res.ok (pkg, ws)) :
    pkg.metadata.authors ≠ [] ∧
    ((initialPackage manifest).metadata.authors = [] →
      (env.authors = Option.none ∨ env.authors = Option.some []) →
      pkg.metadata.authors = [[]]) := by
  obtain ⟨s, fw, hcore, hlib, hpkg, hws⟩ := loadPackageConfig_ok _ _ _ _ _ _ _ _ _ h
  obtain ⟨pn, licO, tagsO, readmeO, hpn, hlicp, htagsp, hreadmep, hmeta⟩ :=
    loadCore_ok_metadata _ _ _ _ _ _ _ _ _ hcore
  have hm : pkg.metadata = s.pkg.metadata := by rw [hpkg]
  have hauth : pkg.metadata.authors =
      if (nuspecPackage manifest.package).metadata.authors = []
      then splitColonTrim (env.authors.getD [])
      else (nuspecPackage manifest.package).metadata.authors := by
    rw [hm, hmeta]
  constructor
  · rw [hauth]
    by_cases ha : (nuspecPackage manifest.package).metadata.authors = []
    · rw [if_pos ha]
      simp only [splitColonTrim]
      intro hc
      exact splitChar_ne_nil ':' (env.authors.getD []) (List.map_eq_nil_iff.mp hc)
    · rw [if_neg ha]
      exact ha
  · intro h0 henv
    simp only [initialPackage] at h0
    rw [hauth, if_pos h0]
    rcases henv with henv | henv <;> rw [henv] <;> rfl

def c10manifest : Manifest := {}

def c10env : Env := { pkgName := Option.some ("p".toList) }

def c10result : Package := { metadata := { id := ("p".toList), authors := [[]] } }

theorem c10_authors_never_empty_witness :
    c10result.metadata.authors ≠ [] ∧
    (initialPackage c10manifest).metadata.authors = [] ∧
    c10result.metadata.authors = [[]] := by
  have happ := c10_authors_never_empty Platform.otherUnix c10env (fun _ => Option.none)
    (Res.ok []) (Res.ok {}) c10manifest [] c10result [] (by decide)
  exact ⟨happ.1, by decide, happ.2 (by decide) (Or.inl rfl)⟩

/-! ## Claims C3, C5 and C6 -/

/-- C3: `push_file` deduplicates by a basename suffix check — an entry whose
basename is a suffix of some present entry's `src` is silently dropped (so a
basename that merely happens to be a suffix of a different filename, such as
`"tool"` against `"mytool"`, is blocked too), and pushing two entries whose
sources end in the same basename keeps exactly the first. -/
theorem c3_push_file_dedup :
    (∀ (files : List File) (src target b : Str), fileName src = Option.some b →
      (∃ f ∈ files, b.isSuffixOf f.src = true) → push_file files src target = files) ∧
    (push_file [{ src := ("mytool".toList), target := Option.none, exclude := Option.none }]
      ("tool".toList) [] =
      [{ src := ("mytool".toList), target := Option.none, exclude := Option.none }]) ∧
    (∀ (src1 src2 t1 t2 b1 b2 : Str), fileName src1 = Option.some b1 →
      fileName src2 = Option.some b2 → b2.isSuffixOf src1 = true →
      push_file (push_file [] src1 t1) src2 t2 =
        [{ src := src1, target := Option.some (pathJoin t1 b1), exclude := Option.none }]) := by
  refine ⟨?_, by decide, ?_⟩
  · intro files src target b hb hex
    obtain ⟨f, hf, hs⟩ := hex
    have hany : files.any (fun f => b.isSuffixOf f.src) = true := by
      rw [List.any_eq_true]
      exact ⟨f, hf, hs⟩
    simp only [push_file, hb, hany]
    rfl
  · intro src1 src2 t1 t2 b1 b2 h1 h2 hsuf
    have hfirst : push_file [] src1 t1 =
        [{ src := src1, target := Option.some (pathJoin t1 b1), exclude := Option.none }] := by
      simp [push_file, h1]
    rw [hfirst]
    have hany : [({ src := src1, target := Option.some (pathJoin t1 b1), exclude := Option.none } : File)].any (fun f => b2.isSuffixOf f.src) = true := by
      simp [hsuf]
    simp only [push_file, h2, hany]
    rfl

theorem c3_push_file_dedup_witness :
    (fileName ("a/tool".toList) = Option.some ("tool".toList) ∧
      push_file [{ src := ("b/tool".toList), target := Option.none, exclude := Option.none }]
        ("a/tool".toList) ("tools".toList) =
        [{ src := ("b/tool".toList), target := Option.none, exclude := Option.none }]) ∧
    push_file (push_file [] ("a/app".toList) ("tools".toList)) ("c/app".toList) [] =
      [{ src := ("a/app".toList), target := Option.some ("tools/app".toList),
         exclude := Option.none }] := by
  constructor
  · refine ⟨by decide, ?_⟩
    exact c3_push_file_dedup.1 _ _ _ ("tool".toList) (by decide)
      ⟨{ src := ("b/tool".toList), target := Option.none, exclude := Option.none },
        by decide, by decide⟩
  · have := c3_push_file_dedup.2.2 ("a/app".toList) ("c/app".toList) ("tools".toList) []
      ("app".toList) ("app".toList) (by decide) (by decide) (by decide)
    rw [this]
    decide

theorem skipCommon_self (l : List Str) : skipCommon l l = SkipOut.hang := by
  induction l with
  | nil => rfl
  | cons x xs ih => simp [skipCommon, ih]

theorem skipCommon_append (c : List Str) (e : Str) (es : List Str) :
    skipCommon c (c ++ e :: es) = SkipOut.done Option.none [] (Option.some e) es := by
  induction c with
  | nil => rfl
  | cons x xs ih => simp [skipCommon, ih]

theorem skipCommon_branch (c : List Str) (x : Str) (xs : List Str) (y : Str) (ys : List Str)
    (h : ¬ x = y) :
    skipCommon (c ++ x :: xs) (c ++ y :: ys) =
      SkipOut.done (Option.some x) xs (Option.some y) ys := by
  induction c with
  | nil => simp [skipCommon, h]
  | cons z zs ih => simp [skipCommon, ih]

/-- C5: relative-path resolution — a target strictly below the canonical base
yields the remaining components; a sibling target yields one `".."` per
remaining base component (the mismatching one included) followed by the
target's remaining components; different root/volume components yield the
canonical absolute target path. -/
theorem c5_relative_path_resolution :
    (∀ (canon : Canon) (a t r : Str) (c extra : List Str),
      canon a = Option.some ⟨r, c⟩ → canon t = Option.some ⟨r, c ++ extra⟩ → extra ≠ [] →
      getRelativePath canon a t = Res.ok (joinSep '/' extra)) ∧
    (∀ (canon : Canon) (a t r x y : Str) (c xs ys : List Str),
      canon a = Option.some ⟨r, c ++ x :: xs⟩ → canon t = Option.some ⟨r, c ++ y :: ys⟩ →
      x ≠ y →
      getRelativePath canon a t =
        Res.ok (joinSep '/' (List.replicate (1 + xs.length) ['.', '.'] ++ y :: ys))) ∧
    (∀ (canon : Canon) (a t : Str) (p q : CanonPath),
      canon a = Option.some p → canon t = Option.some q → p.root ≠ q.root →
      getRelativePath canon a t = Res.ok (renderAbs q)) := by
  refine ⟨?_, ?_, ?_⟩
  · intro canon a t r c extra ha ht hne
    cases extra with
    | nil => exact absurd rfl hne
    | cons e es =>
      simp [getRelativePath, ha, ht, skipCommon_append]
  · intro canon a t r x y c xs ys ha ht hxy
    simp [getRelativePath, ha, ht, skipCommon_branch c x xs y ys hxy]
  · intro canon a t p q ha ht hne
    simp [getRelativePath, ha, ht, hne]

def c5canon : Canon := fun s =>
  if s = ("/a".toList) then Option.some ⟨("/".toList), [("a".toList)]⟩
  else if s = ("/a/x/y".toList) then
    Option.some ⟨("/".toList), [("a".toList), ("x".toList), ("y".toList)]⟩
  else if s = ("/a/x".toList) then Option.some ⟨("/".toList), [("a".toList), ("x".toList)]⟩
  else if s = ("/a/y/z".toList) then
    Option.some ⟨("/".toList), [("a".toList), ("y".toList), ("z".toList)]⟩
  else if s = ("D:/w".toList) then Option.some ⟨("D:".toList), [("w".toList)]⟩
  else Option.none

theorem c5_relative_path_resolution_witness :
    getRelativePath c5canon ("/a".toList) ("/a/x/y".toList) = Res.ok ("x/y".toList) ∧
    getRelativePath c5canon ("/a/x".toList) ("/a/y/z".toList) = Res.ok ("../y/z".toList) ∧
    getRelativePath c5canon ("/a".toList) ("D:/w".toList) =
      Res.ok (("D:".toList) ++ ("w".toList)) := by
  refine ⟨?_, ?_, ?_⟩
  · have := c5_relative_path_resolution.1 c5canon ("/a".toList) ("/a/x/y".toList)
      ("/".toList) [("a".toList)] [("x".toList), ("y".toList)] (by decide) (by decide)
      (by decide)
    rw [this]
    decide
  · have := c5_relative_path_resolution.2.1 c5canon ("/a/x".toList) ("/a/y/z".toList)
      ("/".toList) ("x".toList) ("y".toList) [("a".toList)] [] [("z".toList)]
      (by decide) (by decide) (by decide)
    rw [this]
    decide
  · have := c5_relative_path_resolution.2.2 c5canon ("/a".toList) ("D:/w".toList)
      ⟨("/".toList), [("a".toList)]⟩ ⟨("D:".toList), [("w".toList)]⟩
      (by decide) (by decide) (by decide)
    rw [this]
    decide

/-- C6 (the code, at the claim's failing inputs): when the target canonicalizes
to exactly the base directory's canonical path, the component-skipping `while`
loop of `get_relative_path` compares `None` with `None`, which is `true`, and
therefore never exits — the call diverges instead of returning the empty
string. -/
theorem c6_equal_canonical_paths_hang (canon : Canon) (a t : Str) (p : CanonPath)
    (ha : canon a = Option.some p) (ht : canon t = Option.some p) :
    getRelativePath canon a t = Res.hang := by
  simp [getRelativePath, ha, ht, skipCommon_self]

def c6canon : Canon := fun s =>
  if s = ("/a".toList) then Option.some ⟨("/".toList), [("a".toList)]⟩ else Option.none

theorem c6_equal_canonical_paths_hang_witness :
    getRelativePath c6canon ("/a".toList) ("/a".toList) = Res.hang :=
  c6_equal_canonical_paths_hang c6canon ("/a".toList) ("/a".toList)
    ⟨("/".toList), [("a".toList)]⟩ (by decide) (by decide)

/-! ## Claim C4 -/

theorem pathJoin_nil (q : Str) : pathJoin [] q = q := by
  simp [pathJoin]

/-- C4: with no license in the user spec, a non-empty environment SPDX
expression wins and adds no file entry; only when that expression is absent or
empty does a non-empty environment license-file path produce the
`File`-variant license holding the resolved path's basename, plus exactly one
new file entry whose target is the package root (the empty target folder
joined with the basename). -/
theorem c4_license_derivation (env : Env) (canon : Canon) (outDir : Str) (pkg : Package)
    (files : List File) :
    (∀ e, pkg.metadata.license = Option.none → env.license = Option.some e → e ≠ [] →
      resolveLicense env canon outDir pkg files =
        Res.ok ({ pkg with metadata :=
          { pkg.metadata with license := Option.some (License.expression e) } }, files)) ∧
    (∀ p lp b, pkg.metadata.license = Option.none →
      (env.license = Option.none ∨ env.license = Option.some []) →
      env.licenseFile = Option.some p → p ≠ [] →
      getRelativePath canon outDir p = Res.ok lp → fileName lp = Option.some b →
      (∀ f ∈ files, b.isSuffixOf f.src = false) →
      resolveLicense env canon outDir pkg files =
        Res.ok ({ pkg with metadata :=
          { pkg.metadata with license := Option.some (License.file b) } },
          files ++ [{ src := lp, target := Option.some b, exclude := Option.none }])) := by
  constructor
  · intro e hlic henv he
    simp [resolveLicense, applyLicenseExpression, applyLicenseFile, nonEmptyEnv,
      hlic, henv, he]
  · intro p lp b hlic henv hfile hp hrel hfn hnot
    have hjoin : pathJoin [] b = b := pathJoin_nil b
    have hanyf : files.any (fun f => b.isSuffixOf f.src) = false := by
      rw [List.any_eq_false]
      intro f hf
      simp [hnot f hf]
    rcases henv with henv | henv <;>
    · simp [resolveLicense, applyLicenseExpression, applyLicenseFile, push_file,
        nonEmptyEnv, Res.bind, hlic, henv, hfile, hp, hrel, hfn, hjoin, hanyf]
      intro f hf
      rw [← List.isSuffixOf_iff_suffix]
      simp [hnot f hf]

def c4envA : Env := { license := Option.some ("MIT OR Apache-2.0".toList) }

def c4envB : Env := { licenseFile := Option.some ("/lic/LICENSE.txt".toList) }

def c4canon : Canon := fun s =>
  if s = ("/out".toList) then Option.some ⟨("/".toList), [("out".toList)]⟩
  else if s = ("/lic/LICENSE.txt".toList) then
    Option.some ⟨("/".toList), [("lic".toList), ("LICENSE.txt".toList)]⟩
  else Option.none

theorem c4_license_derivation_witness :
    resolveLicense c4envA c4canon ("/out".toList) {} [] =
      Res.ok ({ metadata :=
        { license := Option.some (License.expression ("MIT OR Apache-2.0".toList)) } }, []) ∧
    resolveLicense c4envB c4canon ("/out".toList) {} [] =
      Res.ok ({ metadata :=
        { license := Option.some (License.file ("LICENSE.txt".toList)) } },
        [{ src := ("../lic/LICENSE.txt".toList), target := Option.some ("LICENSE.txt".toList),
           exclude := Option.none }]) := by
  constructor
  · have := (c4_license_derivation c4envA c4canon ("/out".toList) {} []).1
      ("MIT OR Apache-2.0".toList) rfl rfl (by decide)
    exact this.trans (by rfl)
  · have := (c4_license_derivation c4envB c4canon ("/out".toList) {} []).2
      ("/lic/LICENSE.txt".toList) ("../lic/LICENSE.txt".toList) ("LICENSE.txt".toList)
      rfl (Or.inl rfl) rfl (by decide) (by decide) (by decide) (by simp)
    exact this.trans (by decide)

/-! ## Claim C8 -/

theorem processCrateTypes_unsupported (plat : Platform) (name rel : Str) (files : List File)
    (cts : List ManifestCrateType)
    (h : ∀ ct ∈ cts, ct = ManifestCrateType.lib ∨ ct = ManifestCrateType.procMacroType) :
    processCrateTypes plat name rel files cts =
      (files, cts.map (fun ct =>
        if ct = ManifestCrateType.lib then libNotSupportedWarning
        else procMacroNotSupportedWarning)) := by
  induction cts with
  | nil => rfl
  | cons ct rest ih =>
    have hct := h ct (by simp)
    have hrest : ∀ c ∈ rest, c = ManifestCrateType.lib ∨ c = ManifestCrateType.procMacroType :=
      fun c hc => h c (by simp [hc])
    rcases hct with hct | hct <;> subst hct <;>
      simp [processCrateTypes, processCrateType, ih hrest]

/-- C8: once the artifact path for the library block is resolved (hypothesis
`hrel`; the fallback makes it resolve whenever `get_relative_path` does not
hang), a missing `crate-type`, a present-but-empty `crate-type` list, and a
list made only of the unsupported `lib` / `proc-macro` kinds each leave
`load_package_config` returning `Ok` with the already-collected files
unchanged — no entry is emitted for those kinds — and produce exactly the
advisory `cargo:warning` lines (one per unsupported kind). -/
theorem c8_unsupported_crate_types_warn_only
    (plat : Platform) (env : Env) (canon : Canon) (artRes : Res Str)
    (wsmRes : Res WorkspaceManifest) (mp : Option ManifestPackage)
    (mb : Option (List ManifestBinary)) (outDir : Str) (s : LoadState)
    (l : ManifestLibrary) (rel : Str)
    (hcore : loadCore plat env canon artRes wsmRes mp mb outDir = Res.ok s)
    (hrel : Res.unwrapOr
        (getRelativePath canon outDir (pathJoin s.art (l.name.getD (replaceDash s.pkgName))))
        (l.name.getD (replaceDash s.pkgName)) = Res.ok rel) :
    (l.crate_type = Option.none →
      loadPackageConfig plat env canon artRes wsmRes
          { package := mp, binary := mb, lib := Option.some l } outDir =
        Res.ok ({ s.pkg with
            files := if s.files = [] then Option.none
              else Option.some { file := s.files } }, [noCrateTypeWarning])) ∧
    (l.crate_type = Option.some [] →
      loadPackageConfig plat env canon artRes wsmRes
          { package := mp, binary := mb, lib := Option.some l } outDir =
        Res.ok ({ s.pkg with
            files := if s.files = [] then Option.none
              else Option.some { file := s.files } }, [noCrateTypeWarning])) ∧
    (∀ cts, l.crate_type = Option.some cts → cts ≠ [] →
      (∀ ct ∈ cts, ct = ManifestCrateType.lib ∨ ct = ManifestCrateType.procMacroType) →
      loadPackageConfig plat env canon artRes wsmRes
          { package := mp, binary := mb, lib := Option.some l } outDir =
        Res.ok ({ s.pkg with
            files := if s.files = [] then Option.none
              else Option.some { file := s.files } },
          cts.map (fun ct =>
            if ct = ManifestCrateType.lib then libNotSupportedWarning
            else procMacroNotSupportedWarning))) := by
  refine ⟨?_, ?_, ?_⟩
  · intro h
    simp [loadPackageConfig, processLib, processLibResolved, Res.bind, hcore, hrel, h]
  · intro h
    simp [loadPackageConfig, processLib, processLibResolved, processCrateTypes,
      Res.bind, hcore, hrel, h]
  · intro cts hct hne hall
    have hu := processCrateTypes_unsupported plat (l.name.getD (replaceDash s.pkgName))
      rel s.files cts hall
    simp [loadPackageConfig, processLib, processLibResolved, Res.bind, hcore, hrel,
      hct, hne, hu]

def c8env : Env := { pkgName := Option.some ("my-tool".toList) }

def c8canon : Canon := fun _ => Option.none

def c8lib : ManifestLibrary :=
  { name := Option.none,
    crate_type := Option.some [ManifestCrateType.lib, ManifestCrateType.procMacroType] }

def c8meta : Metadata := { id := ("my-tool".toList), authors := [[]] }

def c8pkg : Package := { metadata := c8meta }

def c8state : LoadState :=
  { art := ("/art".toList), pkgName := ("my-tool".toList), pkg := c8pkg, files := [] }

theorem c8_unsupported_crate_types_warn_only_witness :
    loadPackageConfig Platform.otherUnix c8env c8canon (Res.ok ("/art".toList)) (Res.ok {})
        { package := Option.none, binary := Option.none, lib := Option.some c8lib }
        ("/out".toList) =
      Res.ok (c8pkg, [libNotSupportedWarning, procMacroNotSupportedWarning]) := by
  have := (c8_unsupported_crate_types_warn_only Platform.otherUnix c8env c8canon
    (Res.ok ("/art".toList)) (Res.ok {}) Option.none Option.none ("/out".toList)
    c8state c8lib ("my_tool".toList) (by decide) (by decide)).2.2
    [ManifestCrateType.lib, ManifestCrateType.procMacroType] rfl (by decide) (by decide)
  exact this.trans (by decide)

/-! ## Claim C9 -/

/-- C9: path-resolution failure for a declared binary's or the declared
library's artifact is non-fatal — the bare declared (crate) name is used as
the fallback `src` and processing returns `Ok` — whereas path-resolution
failure for the environment license-file or readme paths required by resolved
metadata aborts the whole load with an error. -/
theorem c9_artifact_fallback_nonfatal_metadata_paths_fatal :
    (∀ plat canon outDir art (files : List File) (b : ManifestBinary),
      (plat = Platform.macos ∨ plat = Platform.otherUnix) →
      getRelativePath canon outDir (pathJoin art b.name) = Res.err →
      processBinary plat canon outDir art files b =
        Res.ok (push_file files b.name toolsT)) ∧
    (∀ plat canon outDir art pn (l : ManifestLibrary) (files : List File),
      getRelativePath canon outDir (pathJoin art (l.name.getD (replaceDash pn))) = Res.err →
      processLib plat canon outDir art pn (Option.some l) files =
        Res.ok (processLibResolved plat (l.name.getD (replaceDash pn))
          (l.name.getD (replaceDash pn)) l.crate_type files)) ∧
    (∀ plat (env : Env) canon (art : Str) wsmRes mb outDir p pn,
      env.pkgName = Option.some pn → env.license = Option.none →
      env.licenseFile = Option.some p → p ≠ [] →
      getRelativePath canon outDir p = Res.err →
      loadCore plat env canon (Res.ok art) wsmRes Option.none mb outDir = Res.err) ∧
    (∀ plat (env : Env) canon (art : Str) wsmRes mb outDir p pn,
      env.pkgName = Option.some pn → env.licenseFile = Option.none →
      env.readme = Option.some p → p ≠ [] →
      getRelativePath canon outDir p = Res.err →
      loadCore plat env canon (Res.ok art) wsmRes Option.none mb outDir = Res.err) := by
  refine ⟨?_, ?_, ?_, ?_⟩
  · intro plat canon outDir art files b hplat herr
    rcases hplat with h | h <;> subst h <;>
      simp [processBinary, Res.unwrapOr, Res.bind, herr]
  · intro plat canon outDir art pn l files herr
    simp [processLib, Res.unwrapOr, Res.bind, herr]
  · intro plat env canon art wsmRes mb outDir p pn hpn hlic hfile hp herr
    simp [loadCore, rewriteFiles, nuspecPackage, Res.bind, Res.ofOption, hpn,
      applyId, applyVersion, applyDescription, applyAuthors, applyProjectUrl,
      applyLicenseExpression, applyLicenseFile, nonEmptyEnv, hlic, hfile, hp, herr]
  · intro plat env canon art wsmRes mb outDir p pn hpn hfile hrd hp herr
    simp [loadCore, rewriteFiles, nuspecPackage, Res.bind, Res.ofOption, hpn,
      applyId, applyVersion, applyDescription, applyAuthors, applyProjectUrl,
      applyLicenseExpression, applyLicenseFile, applyTags, tagsFromManifest,
      applyRepository, applyReadme, nonEmptyEnv, hfile, hrd, hp, herr]

def c9canon : Canon := fun _ => Option.none

def c9envLic : Env :=
  { pkgName := Option.some ("my-tool".toList),
    licenseFile := Option.some ("/lic/LICENSE".toList) }

def c9envReadme : Env :=
  { pkgName := Option.some ("my-tool".toList),
    readme := Option.some ("/doc/README.md".toList) }

theorem c9_artifact_fallback_nonfatal_metadata_paths_fatal_witness :
    processBinary Platform.otherUnix c9canon ("/out".toList) ("/art".toList) []
        { name := ("mybin".toList) } =
      Res.ok (push_file [] ("mybin".toList) toolsT) ∧
    processLib Platform.otherUnix c9canon ("/out".toList) ("/art".toList) ("my-tool".toList)
        (Option.some { crate_type := Option.some [ManifestCrateType.rlib] }) [] =
      Res.ok (processLibResolved Platform.otherUnix ("my_tool".toList) ("my_tool".toList)
        (Option.some [ManifestCrateType.rlib]) []) ∧
    loadCore Platform.otherUnix c9envLic c9canon (Res.ok ("/art".toList)) (Res.ok {})
      Option.none Option.none ("/out".toList) = Res.err ∧
    loadCore Platform.otherUnix c9envReadme c9canon (Res.ok ("/art".toList)) (Res.ok {})
      Option.none Option.none ("/out".toList) = Res.err := by
  refine ⟨?_, ?_, ?_, ?_⟩
  · exact c9_artifact_fallback_nonfatal_metadata_paths_fatal.1 Platform.otherUnix c9canon
      ("/out".toList) ("/art".toList) [] { name := ("mybin".toList) } (Or.inr rfl) (by decide)
  · exact (c9_artifact_fallback_nonfatal_metadata_paths_fatal.2.1 Platform.otherUnix c9canon
      ("/out".toList) ("/art".toList) ("my-tool".toList)
      { crate_type := Option.some [ManifestCrateType.rlib] } [] (by decide)).trans (by decide)
  · exact c9_artifact_fallback_nonfatal_metadata_paths_fatal.2.2.1 Platform.otherUnix c9envLic
      c9canon ("/art".toList) (Res.ok {}) Option.none ("/out".toList)
      ("/lic/LICENSE".toList) ("my-tool".toList) rfl rfl rfl (by decide) (by decide)
  · exact c9_artifact_fallback_nonfatal_metadata_paths_fatal.2.2.2 Platform.otherUnix
      c9envReadme c9canon ("/art".toList) (Res.ok {}) Option.none ("/out".toList)
      ("/doc/README.md".toList) ("my-tool".toList) rfl rfl rfl (by decide) (by decide)

end NuspecModel
